import Mathlib

set_option maxHeartbeats 1000000
set_option maxRecDepth 40000

/-!
Verification development for the border-resegmentation and mosaic-reconciliation
engine of `src/resegement_tiles.py`.  Python arrays are embedded as Lean lists or
total functions, NumPy float NaN as `Option` (`none` = NaN, and comparisons with
NaN are `false`, as in IEEE), machine floats as `ℚ` (all quantities involved are
exact decimals and means of small integer datasets, so rational arithmetic is a
faithful model of the float computations that decide every branch studied here).
-/

/-- Canonical subtile edge length: the script sets `SIZE = 168` in `__main__`. -/
def SIZE : ℕ := 168

/-! ### Generic list helpers (embedding NumPy primitives) -/

/-- `enumerate` with an explicit start index (models Python's `enumerate`). -/
def mapWithIndex {α β : Type} (f : ℕ → α → β) : ℕ → List α → List β
  | _, [] => []
  | k, x :: xs => f k x :: mapWithIndex f (k + 1) xs

/-- `enumerate(l)`. -/
def enumIdx {α : Type} (l : List α) : List (ℕ × α) :=
  mapWithIndex (fun i a => (i, a)) 0 l

/-- `np.max` over a possibly empty float vector (`none` on the empty vector,
where NumPy raises / returns NaN). -/
def listMaxQ : List ℚ → Option ℚ
  | [] => none
  | x :: xs => some (xs.foldl max x)

/-- `np.min` over a possibly empty float vector. -/
def listMinQ : List ℚ → Option ℚ
  | [] => none
  | x :: xs => some (xs.foldl min x)

/-- `np.max` over a possibly empty integer vector (`none` models the
`ValueError: zero-size array reduction` NumPy raises on an empty input). -/
def listMaxNat : List ℕ → Option ℕ
  | [] => none
  | x :: xs => some (xs.foldl max x)

/-- `np.nanmean` of a float vector: mean of the non-NaN entries, NaN when every
entry is NaN. -/
def nanmeanList (l : List (Option ℚ)) : Option ℚ :=
  let v := l.filterMap id
  if v.length = 0 then none else some (v.sum / (v.length : ℚ))

/-- `np.delete(l, idxs)`: drop the positions listed in `idxs`. -/
def np_delete {α : Type} (l : List α) (idxs : List ℕ) : List α :=
  (enumIdx l).filterMap (fun ia => if ia.1 ∈ idxs then none else some ia.2)

/-! ### `predict_subtile` / `predict_gap` (lines 111–201)

Both predictors guard on `np.sum(subtile) > 0`.  In the positive branch the
code computes remote-sensing indices (`evi`, `bi`, `msavi2`, `grndvi`, all
imported from `preprocessing.indices`, outside this repository's core source),
normalizes, and runs an opaque TensorFlow session; the spec treats that whole
branch as an opaque predictor, so it is modeled by applying the session
parameter to the raw input.  The negative branch returns
`np.full((SIZE, SIZE), 255)` and never touches the session. -/

/-- Result of one predictor call: whether the TF session was invoked, and the
returned `(SIZE, SIZE)` patch. -/
structure PredResult where
  invoked : Bool
  preds : Fin SIZE → Fin SIZE → ℚ

/-- `np.full((SIZE, SIZE), 255)`. -/
def np_full_255 : Fin SIZE → Fin SIZE → ℚ := fun _ _ => 255

/-- `predict_subtile(subtile, sess)` (line 111): temporal predictor dispatch. -/
def predict_subtile (subtile : List ℚ) (sess : List ℚ → Fin SIZE → Fin SIZE → ℚ) :
    PredResult :=
  if 0 < subtile.sum then ⟨true, sess subtile⟩ else ⟨false, np_full_255⟩

/-- `predict_gap(subtile, sess)` (line 157): median predictor dispatch. -/
def predict_gap (subtile : List ℚ) (gap_sess : List ℚ → Fin SIZE → Fin SIZE → ℚ) :
    PredResult :=
  if 0 < subtile.sum then ⟨true, gap_sess subtile⟩ else ⟨false, np_full_255⟩

/-! ### `align_dates` (lines 217–220) and the fallback in `resegment_border`
(lines 499–520) -/

/-- `align_dates(tile_date, neighb_date)`: positions of dates of each series
absent from the other. -/
def align_dates (tile_date neighb_date : List ℕ) : List ℕ × List ℕ :=
  ((enumIdx tile_date).filterMap
      (fun ia => if ia.2 ∈ neighb_date then none else some ia.1),
   (enumIdx neighb_date).filterMap
      (fun ia => if ia.2 ∈ tile_date then none else some ia.1))

/-- Outcome of the date-synchronization block of `resegment_border`:
the two surviving date series and whether the positional-truncation fallback
was taken. -/
structure AlignResult where
  dates : List ℕ
  dates_neighb : List ℕ
  fallback : Bool
deriving DecidableEq

/-- Lines 499–518 of `resegment_border`: if removing unmatched dates would
leave either series with fewer than 5 dates, truncate positionally (note the
source truncates `dates` first and then truncates `dates_neighb` against the
already-truncated `dates`); otherwise drop the unmatched positions. -/
def align_or_truncate (dates dates_neighb : List ℕ) : AlignResult :=
  let rm := align_dates dates dates_neighb
  if dates.length - rm.1.length < 5 ∨ dates_neighb.length - rm.2.length < 5 then
    let d2 := dates.take dates_neighb.length
    let n2 := dates_neighb.take d2.length
    ⟨d2, n2, true⟩
  else
    ⟨np_delete dates rm.1, np_delete dates_neighb rm.2, false⟩

/-! ### `resegment_border` control flow (lines 421–561)

The orchestrator is embedded as a decision skeleton over an environment record
holding exactly the data its guards read.  Array plumbing that cannot change
the control flow (downloads, the Sentinel-1 subsampling table, concatenation)
is elided; the dispatch into `process_subtiles` is recorded as a Boolean so
that "no predictor was invoked" is expressible (predictors are only ever
invoked from inside `process_subtiles`). -/

/-- Data read by the guards of `resegment_border` for one (tile, neighbor)
pair.  `tile_tif = none` models `load_tif` returning a non-array.  Rasters are
row lists (row-major, as `rasterio.read(1)` returns). -/
structure BorderEnv where
  processed : Bool
  processed_neighbor : Bool
  tile_tif : Option (List (List ℚ))
  neighbor_tif : List (List ℚ)
  smooth : ℕ
  subtile_shape0 : ℕ
  neighbor_subtile_shape0 : ℕ
  dates : List ℕ
  dates_neighb : List ℕ

/-- Values `> 100` are masked to NaN (lines 448–449). -/
def maskHigh (v : ℚ) : Option ℚ := if 100 < v then none else some v

/-- `np.nanmean(neighbor_tif[:, 0])` after masking (line 450). -/
def right_mean (neighbor_tif : List (List ℚ)) : Option ℚ :=
  nanmeanList ((neighbor_tif.map (fun r => r.headD 0)).map maskHigh)

/-- `np.nanmean(tile_tif[:, -1])` after masking (line 451). -/
def left_mean (tile_tif : List (List ℚ)) : Option ℚ :=
  nanmeanList ((tile_tif.map (fun r => r.getLastD 0)).map maskHigh)

/-- The discontinuity test `abs(right_mean - left_mean) > 15` (line 454);
`false` when either mean is NaN (IEEE comparison) or the tile raster failed to
load. -/
def border_diff_exceeds (env : BorderEnv) : Bool :=
  match env.tile_tif with
  | none => false
  | some ttif =>
    match right_mean env.neighbor_tif, left_mean ttif with
    | some r, some l => decide (15 < |r - l|)
    | _, _ => false

/-- Control-flow skeleton of `resegment_border` for the `edge = "right"` call
used by the driver: returns the function's return value (0 = skip, 1 =
finished) paired with whether `process_subtiles` (hence any predictor) was
invoked. -/
def resegment_border (env : BorderEnv) : ℕ × Bool :=
  if env.processed ∧ env.processed_neighbor then
    match env.tile_tif with
    | none => (0, false)
    | some _ =>
      if env.smooth = 1 then (0, false)
      else if border_diff_exceeds env then
        if env.subtile_shape0 ≠ SIZE then (0, false)
        else if env.neighbor_subtile_shape0 ≠ SIZE then (0, false)
        else
          let ar := align_or_truncate env.dates env.dates_neighb
          if ar.fallback = false ∧ (ar.dates.length = 0 ∨ ar.dates_neighb.length = 0) then
            (0, false)
          else (1, true)
      else (0, false)
  else (0, false)

/-! ### `process_subtiles` mode-selection loop (lines 240–393)

Each subtile is summarized by the data the mode logic reads: the usable date
series left after the three filtering steps (excess interpolation, missing
pixels, missed clouds — all computed by external collaborators), the
`max_distance` returned by `calculate_and_save_best_images`, and whether that
compositing step raised (line 318), in which case the source replaces the date
series by the sentinel `[0]`.  The loop writes one prediction per iteration
(`np.save` overwrites), may reset its index `t` to 0 once when the median
counter crosses the threshold, and is embedded with explicit fuel whose
sufficiency is proved. -/

/-- Per-subtile summary of the inputs of the mode-selection logic. -/
structure Subtile where
  dates : List ℕ
  maxDist : ℕ
  compositingFails : Bool
deriving DecidableEq

/-- Placeholder subtile used for out-of-range `getD` access (never reached by
the loop, which guards `t < length`). -/
def defaultSubtile : Subtile := ⟨[], 0, true⟩

/-- The prediction written for one subtile: the all-255 no-data patch, the
median (`predict_gap`) branch, or the temporal (`predict_subtile`) branch. -/
inductive PredMode
  | noData
  | median
  | temporal
deriving DecidableEq

/-- `dates_tile` as seen after the try/except at lines 316–324: the filtered
series, or the sentinel `[0]` when compositing raised. -/
def effDates (st : Subtile) : List ℕ :=
  if st.compositingFails then [0] else st.dates

/-- Line 366: `no_images = True if len(dates_tile) < 3 else no_images`. -/
def noImagesB (st : Subtile) : Bool :=
  st.compositingFails || decide ((effDates st).length < 3)

/-- Line 372: `dates_tile[0] >= 150 or dates_tile[-1] <= 215 or
max_distance > 265 or len(dates_tile) < 5`. -/
def medianWorthy (st : Subtile) : Bool :=
  let d := effDates st
  decide (150 ≤ d.headD 0) || decide (d.getLastD 0 ≤ 215) ||
    decide (265 < st.maxDist) || decide (d.length < 5)

/-- Loop state of `process_subtiles`: index `t`, the `n_median` counter, the
`gap_between_years` flag, and the write log (most recent write first; a later
write to the same index shadows the earlier one, as `np.save` overwrites). -/
structure LoopState where
  t : ℕ
  nMedian : ℕ
  gapBetweenYears : Bool
  outs : List (ℕ × PredMode)
deriving DecidableEq

/-- Most recent prediction saved for subtile index `i`. -/
def findMode : List (ℕ × PredMode) → ℕ → Option PredMode
  | [], _ => none
  | (k, v) :: r, i => if i = k then some v else findMode r i

/-- `n_median` after the worthiness test of lines 372–373 at the current
subtile. -/
def stepN (subs : List Subtile) (s : LoopState) : ℕ :=
  if medianWorthy (subs.getD s.t defaultSubtile) then s.nMedian + 1 else s.nMedian

/-- Line 375's guard: the current subtile is median-worthy, the flag is not
yet latched, and the updated counter reaches `median_thresh = 5`. -/
def stepReset (subs : List Subtile) (s : LoopState) : Bool :=
  medianWorthy (subs.getD s.t defaultSubtile) && !s.gapBetweenYears &&
    decide (5 ≤ stepN subs s)

/-- Line 380's dispatch given the (possibly just latched) flag value `g`:
`len(dates_tile) < 5 or gap_between_years` selects the median branch. -/
def stepModeWith (subs : List Subtile) (s : LoopState) (g : Bool) : PredMode :=
  if (effDates (subs.getD s.t defaultSubtile)).length < 5 ∨ g = true then
    PredMode.median
  else PredMode.temporal

/-- One iteration of the `while t < len(tiles_folder)` body (lines 279–391),
restricted to the mode logic: `t` is incremented on entry; the no-data branch
writes 255; otherwise the median-worthiness test may bump `n_median` and, on
first crossing the threshold, reset `t` (line 377: `t = 0 if t > 1 else t`)
and latch `gap_between_years`; the prediction branch is then chosen from the
updated flag. -/
def stepSubtile (subs : List Subtile) (s : LoopState) : LoopState :=
  if noImagesB (subs.getD s.t defaultSubtile) then
    ⟨s.t + 1, s.nMedian, s.gapBetweenYears, (s.t, PredMode.noData) :: s.outs⟩
  else if stepReset subs s then
    ⟨if 1 < s.t + 1 then 0 else s.t + 1, stepN subs s, true,
     (s.t, stepModeWith subs s true) :: s.outs⟩
  else
    ⟨s.t + 1, stepN subs s, s.gapBetweenYears,
     (s.t, stepModeWith subs s s.gapBetweenYears) :: s.outs⟩

/-- Fueled while-loop. -/
def runLoopAux (subs : List Subtile) : ℕ → LoopState → LoopState
  | 0, s => s
  | Nat.succ f, s =>
    if s.t < subs.length then runLoopAux subs f (stepSubtile subs s) else s

/-- The whole subtile loop of `process_subtiles` starting from
`t = 0, n_median = 0, gap_between_years = False`.  Fuel `2·n + 1` dominates the
loop's decreasing measure (proved below), so the returned state is the loop's
true final state. -/
def process_subtiles_modes (subs : List Subtile) : LoopState :=
  runLoopAux subs (2 * subs.length + 1) ⟨0, 0, false, []⟩

/-- The prediction each subtile ends with once `gap_between_years` is latched:
no-data subtiles get 255, all others the median branch. -/
def expectedMode (st : Subtile) : PredMode :=
  if noImagesB st then PredMode.noData else PredMode.median

/-- A subtile with at least 3 usable dates whose compositing succeeded. -/
def usableSubtile (st : Subtile) : Prop :=
  st.compositingFails = false ∧ 3 ≤ st.dates.length

/-- Termination measure of the loop: strictly decreases at every step. -/
def loopMeasure (subs : List Subtile) (s : LoopState) : ℕ :=
  (if s.gapBetweenYears then 0 else subs.length + 1) + (subs.length - s.t)

/-! ### Mosaic reconciliation: fusion stage (lines 674–683) -/

/-- Line 674: `mults = mults / np.sum(mults, axis=-1)[..., np.newaxis]` at one
pixel.  A zero total (pixel covered by no weighted patch) makes every quotient
NaN (`0/0`), modeled as `none`. -/
def normalizeMults (ms : List ℚ) : List (Option ℚ) :=
  ms.map (fun m => if ms.sum = 0 then none else some (m / ms.sum))

/-- Line 676: `predictions[predictions > 100] = np.nan`. -/
def maskGt100 (o : Option ℚ) : Option ℚ :=
  o.bind (fun v => if 100 < v then none else some v)

/-- `np.nansum(predictions * mults)` over the patch axis at one pixel: a
product with a NaN factor contributes 0. -/
def nansumProd (ps ws : List (Option ℚ)) : ℚ :=
  ((ps.zip ws).map (fun pr =>
    match pr.1, pr.2 with
    | some a, some b => a * b
    | _, _ => 0)).sum

/-- `np.sum(np.isnan(...))` over the patch axis at one pixel (line 678). -/
def countNone (ps : List (Option ℚ)) : ℕ :=
  (ps.filter (fun o => o.isNone)).length

/-- Lines 676–682 at one pixel: clip values above 100 to NaN, weighted
`nansum`, pixels whose every layer is NaN become NaN and then the 255
sentinel. -/
def fusePixel (preds : List (Option ℚ)) (ms : List ℚ) : ℚ :=
  let masked := preds.map maskGt100
  let fused := nansumProd masked (normalizeMults ms)
  if countNone masked = preds.length then 255 else fused

/-- `astype(np.uint8)` on a nonnegative float: truncate and wrap mod 256. -/
def npUint8 (q : ℚ) : ℕ := (Int.toNat ⌊q⌋) % 256

/-- The fused uint8 value of one pixel (line 683). -/
def fusedByte (preds : List (Option ℚ)) (ms : List ℚ) : ℕ :=
  npUint8 (fusePixel preds ms)

/-! ### Mosaic reconciliation: local cleanup pass (lines 685–708)

The fused uint8 raster is scanned with a 3×3 window.  A crucial detail of the
source: at line 692 the first rule executes `window = 0.`, which rebinds the
local name `window` to the float scalar `0.0` and does NOT write into the
array (`original_preds` is unchanged); the only side effect is that the second
rule's guard `np.max(window) >= 25` then reads the scalar 0 and cannot fire.
The second rule's writes (`window[0, :] = 0` etc.) go through a live view and
do mutate the array, so the scan is sequential over row-major window
positions. -/

/-- 2-D uint8 raster as a total function (only indices inside the extent are
ever read). -/
def Raster : Type := ℕ → ℕ → ℕ

/-- Relative coordinates of a 3×3 window, in C (row-major) order — the order
`np.argmax` flattens in. -/
def windowCells : List (ℕ × ℕ) :=
  [(0,0),(0,1),(0,2),(1,0),(1,1),(1,2),(2,0),(2,1),(2,2)]

/-- The 9 window values at offset `(x, y)`, flattened row-major. -/
def windowVals (m : Raster) (x y : ℕ) : List ℕ :=
  windowCells.map (fun rc => m (x + rc.1) (y + rc.2))

/-- `np.max(window)` (values are uint8, hence ≥ 0). -/
def winMax (m : Raster) (x y : ℕ) : ℕ := (windowVals m x y).foldl max 0

/-- `np.sum(np.logical_and(window > 10, window < 35))` (line 690). -/
def sum_under_35 (m : Raster) (x y : ℕ) : ℕ :=
  ((windowVals m x y).filter (fun v => decide (10 < v) && decide (v < 35))).length

/-- `np.argmax(window) == 4`: the first flattened position attaining the
maximum is the center. -/
def argmaxIsCenter (m : Raster) (x y : ℕ) : Bool :=
  let vs := windowVals m x y
  decide (vs.getD 4 0 = winMax m x y) &&
    ((List.range 4).all (fun k => decide (vs.getD k 0 < winMax m x y)))

/-- `np.sum(window_binary)` with `window_binary = window >= 25` (line 698). -/
def countGe25 (m : Raster) (x y : ℕ) : ℕ :=
  ((windowVals m x y).filter (fun v => decide (25 ≤ v))).length

/-- `np.sum(window_binary[1])`: middle row of the binary window. -/
def rowGe25 (m : Raster) (x y : ℕ) : ℕ :=
  (((List.range 3).map (fun c => m (x + 1) (y + c))).filter
    (fun v => decide (25 ≤ v))).length

/-- `np.sum(window_binary[:, 1])`: middle column of the binary window. -/
def colGe25 (m : Raster) (x y : ℕ) : ℕ :=
  (((List.range 3).map (fun r => m (x + r) (y + 1))).filter
    (fun v => decide (25 ≤ v))).length

/-- Lines 701–704: zero every window cell except the center. -/
def zeroRim (m : Raster) (x y : ℕ) : Raster := fun a b =>
  if a = x + 1 ∧ b = y + 1 then m a b
  else if x ≤ a ∧ a < x + 3 ∧ y ≤ b ∧ b < y + 3 then 0
  else m a b

/-- The body of the double loop at one window offset.  Rule 1 (speckle
suppression, lines 689–692) fires without effect on the array (see the module
comment) but rebinds `window`, blocking rule 2; otherwise rule 2 (isolated
diagonal noise, lines 697–704) may zero the window rim. -/
def cleanupStep (m : Raster) (xy : ℕ × ℕ) : Raster :=
  let x := xy.1
  let y := xy.2
  if winMax m x y < 35 ∧ 6 < sum_under_35 m x y ∧ sum_under_35 m x y < 10 then
    m
  else if 25 ≤ winMax m x y ∧ argmaxIsCenter m x y = true ∧ countGe25 m x y < 4 ∧
      rowGe25 m x y < 3 ∧ colGe25 m x y < 3 then
    zeroRim m x y
  else m

/-- Window offsets visited by `for x_i in range(0, shape[0] - 3)` /
`for y_i in range(0, shape[1] - 3)`, row-major. -/
def cleanupIdx (R C : ℕ) : List (ℕ × ℕ) :=
  (List.range (R - 3)).flatMap (fun x => (List.range (C - 3)).map (fun y => (x, y)))

/-- The whole cleanup scan over an `R × C` raster. -/
def cleanup_pass (R C : ℕ) (m : Raster) : Raster :=
  (cleanupIdx R C).foldl cleanupStep m

/-- Lines 707–708: `predictions[predictions <= .20*100] = 0` then
`predictions[predictions > 100] = 255` (uint8 values). -/
def final_threshold (m : Raster) : Raster := fun a b =>
  let v := m a b
  let w := if v ≤ 20 then 0 else v
  if 100 < w then 255 else w

/-- Lines 685–708: the cleanup pass followed by the final thresholding, as a
function of the fused uint8 raster. -/
def recreate_cleanup (R C : ℕ) (m : Raster) : Raster :=
  final_threshold (cleanup_pass R C m)

/-- Concrete fused raster for the cleanup-pass analysis: a 4×4 raster whose
top-left 3×3 block is 30 everywhere (maximum 30 < 35; all nine values lie
strictly between 10 and 35). -/
def cleanupInput : Raster := fun a b => if a < 3 ∧ b < 3 then 30 else 0

/-! ### Mosaic reconciliation: patch enumeration (lines 576–600)

`recreate_resegmented_tifs` lists the output folder, keeps the non-`right`,
non-`.DS`, nonempty subfolders, parses their names as integers and takes
`np.max(x_tiles) + SIZE`.  On an output tree holding zero prediction patches
the integer list is empty and `np.max([])` raises
`ValueError: zero-size array reduction`.  Directory entries are modeled by a
small name algebra instead of raw strings. -/

/-- A directory entry name: a numeric grid folder, a `right…` border folder,
or a `.DS` junk entry. -/
inductive EntryName
  | num (n : ℕ)
  | rightName (n : ℕ)
  | dsStore
deriving DecidableEq

/-- `'right' in x`. -/
def isRightEntry : EntryName → Bool
  | EntryName.rightName _ => true
  | _ => false

/-- `'.DS' in x`. -/
def isDSEntry : EntryName → Bool
  | EntryName.dsStore => true
  | _ => false

/-- `int(x)` on a plain numeric folder name. -/
def entryNum : EntryName → Option ℕ
  | EntryName.num n => some n
  | _ => none

/-- Lines 584–588: filter the folder listing down to usable numeric grid
folders and compute `max_x = np.max(x_tiles) + SIZE`; an empty folder set
raises (modeled by `Except.error`). -/
def recreate_max_x (folders : List (EntryName × List EntryName)) : Except String ℕ :=
  let x_tiles := folders.filter
    (fun f => !isRightEntry f.1 && !isDSEntry f.1 && decide (0 < f.2.length))
  let xs := x_tiles.filterMap (fun f => entryNum f.1)
  match listMaxNat xs with
  | none => Except.error "zero-size array reduction operation maximum"
  | some m => Except.ok (m + SIZE)

/-! ### `make_tiles_right_neighb` (lines 223–237) and the window grid

`resegment_border` builds the y-offsets at lines 482–483:
`gap_y = ceil((H - SIZE)/4)`;
`tiles_folder_y = hstack([arange(0, H - SIZE, gap_y), H - SIZE])`.
`make_tiles_right_neighb` then sorts the offsets (`np.sort` per column),
re-tiles the unique values, and derives the read windows (`tiles_array`) from
the storage offsets (`tiles_folder`): every y-start except the first is moved
back by the 7-px margin and every interior window is lengthened by 7
(`tiles_array[1:, 1] -= 7; tiles_array[1:-1, 3] += 7`).  Along the x axis all
read windows are `(0, 182)`; the storage x offset is the constant `tiles_x`,
so only the y axis is modeled.  Windows are `(start, size)` pairs. -/

/-- `int(np.ceil(M / 4))`. -/
def ceil4 (M : ℕ) : ℕ := (M + 3) / 4

/-- `np.arange(0, M, g)` for a positive step `g`. -/
def np_arange (M g : ℕ) : List ℕ :=
  (List.range ((M + g - 1) / g)).map (fun i => i * g)

/-- Lines 482–483: the y-offset vector for a tile of height `H`. -/
def tiles_folder_y (H : ℕ) : List ℕ :=
  np_arange (H - SIZE) (ceil4 (H - SIZE)) ++ [H - SIZE]

/-- Ordered insertion (auxiliary for `np.sort`). -/
def insertOrd (x : ℕ) : List ℕ → List ℕ
  | [] => [x]
  | y :: r => if x ≤ y then x :: y :: r else y :: insertOrd x r

/-- `np.sort` on one column (ascending insertion sort). -/
def np_sort (l : List ℕ) : List ℕ := l.foldr insertOrd []

/-- Adjacent deduplication; on a sorted list this is `np.unique`. -/
def dedupSorted : List ℕ → List ℕ
  | [] => []
  | [x] => [x]
  | x :: y :: r => if x = y then dedupSorted (y :: r) else x :: dedupSorted (y :: r)

/-- `np.unique`. -/
def np_unique (l : List ℕ) : List ℕ := dedupSorted (np_sort l)

/-- Line 228: `np.tile(np.unique(ys), len(ys) / len(unique))`. -/
def tileUnique (l : List ℕ) : List ℕ :=
  (List.replicate (l.length / (np_unique l).length) (np_unique l)).flatten

/-- The storage-window column of `make_tiles_right_neighb`: `(y, SIZE + 7)`
rows of `tiles_folder`. -/
def tiles_folder_of (ys : List ℕ) : List (ℕ × ℕ) :=
  ys.map (fun y => (y, SIZE + 7))

/-- The read-window column of `make_tiles_right_neighb` (`tiles_array` after
`[1:, 1] -= 7` and `[1:-1, 3] += 7`). -/
def tiles_array_of (ys : List ℕ) : List (ℕ × ℕ) :=
  (List.range ys.length).map (fun i =>
    (if i = 0 then ys.getD i 0 else ys.getD i 0 - 7,
     if i = 0 ∨ i = ys.length - 1 then SIZE + 7 else SIZE + 14))

/-- `make_tiles_right_neighb` restricted to the varying (y) axis: returns
(read windows, storage windows). -/
def make_tiles_right_neighb (ys : List ℕ) : List (ℕ × ℕ) × List (ℕ × ℕ) :=
  let zs := tileUnique ys
  (tiles_array_of zs, tiles_folder_of zs)

/-- Read windows for a tile of height `H`. -/
def c7_read (H : ℕ) : List (ℕ × ℕ) :=
  (make_tiles_right_neighb (tiles_folder_y H)).1

/-- Storage windows for a tile of height `H`. -/
def c7_folder (H : ℕ) : List (ℕ × ℕ) :=
  (make_tiles_right_neighb (tiles_folder_y H)).2

/-- The claim's margin-removal rule on a read window: window 0 loses 7 px of
trailing margin, the last window 7 px of leading margin, interior windows
both. -/
def strip_margin (n i : ℕ) (w : ℕ × ℕ) : ℕ × ℕ :=
  if i = 0 then (w.1, w.2 - 7)
  else if i = n - 1 then (w.1 + 7, w.2 - 7)
  else (w.1 + 7, w.2 - 14)

/-- Pixel `k` lies in some storage window (each stores `SIZE` pixels at its
offset: `recreate_resegmented_tifs` writes `[y : y + SIZE]`). -/
def coversPx (starts : List ℕ) (k : ℕ) : Prop :=
  ∃ s ∈ starts, s ≤ k ∧ k < s + SIZE

/-- The storage windows are pairwise disjoint as `SIZE`-px intervals. -/
def storageDisjoint (starts : List ℕ) : Prop :=
  starts.Pairwise (fun a b => a + SIZE ≤ b ∨ b + SIZE ≤ a)

/-! ### Mosaic reconciliation: outlier rejection (lines 649–672)

The stack of prediction patches is modeled over the pixel grid of one tile
address, `Px = Fin 168 × Fin 168` (the raster extent when the output tree
holds grid address 0 only, the configuration used for all concrete instances
below); a patch is a partial raster (`none` outside its footprint).  The pass
precomputes the per-pixel range across patches, global means over the
low-range / high-range pixel sets, then for each loop index masks the range
to the patch's footprint, drops NaN, reshapes the surviving 28224 values to
`(3, 56, 3, 56)` and averages blocks — `np.reshape` succeeds exactly when the
footprint is the full grid (any partial, nonempty footprint raises
`ValueError`, mirrored by the `Except.error` branch).  Means are embedded as
(sum of non-NaN entries) / (count of non-NaN entries), which is what
`np.nanmean` computes. -/

/-- Pixel grid of a single-address tile raster. -/
abbrev Px : Type := Fin 168 × Fin 168

/-- Default (out-of-range) patch. -/
def noPatch : Px → Option ℚ := fun _ => none

/-- Default (out-of-range) weight layer. -/
def noMult : Px → ℚ := fun _ => 0

/-- Values of all patches present at pixel `p`. -/
def pxVals (preds : List (Px → Option ℚ)) (p : Px) : List ℚ :=
  preds.filterMap (fun f => f p)

/-- Line 651: `np.nanmax(predictions, axis=-1) - np.nanmin(...)` at `p`
(NaN when no patch covers `p`). -/
def predictions_range (preds : List (Px → Option ℚ)) (p : Px) : Option ℚ :=
  match listMaxQ (pxVals preds p), listMinQ (pxVals preds p) with
  | some M, some m => some (M - m)
  | _, _ => none

/-- IEEE `o < c` (false on NaN). -/
def optLtB (o : Option ℚ) (c : ℚ) : Bool :=
  match o with
  | some v => decide (v < c)
  | none => false

/-- IEEE `o > c` (false on NaN). -/
def optGtB (o : Option ℚ) (c : ℚ) : Bool :=
  match o with
  | some v => decide (c < v)
  | none => false

/-- IEEE `a > b` on two possibly-NaN values. -/
def optGtOpt (a b : Option ℚ) : Bool :=
  match a, b with
  | some x, some y => decide (y < x)
  | _, _ => false

/-- IEEE `a < b` on two possibly-NaN values. -/
def optLtOpt (a b : Option ℚ) : Bool :=
  match a, b with
  | some x, some y => decide (x < y)
  | _, _ => false

/-- Sum of all non-NaN patch values over the pixels selected by `sel`. -/
def selNum (preds : List (Px → Option ℚ)) (sel : Px → Bool) : ℚ :=
  Finset.univ.sum (fun p : Px => if sel p then (pxVals preds p).sum else 0)

/-- Count of non-NaN patch values over the pixels selected by `sel`. -/
def selDen (preds : List (Px → Option ℚ)) (sel : Px → Bool) : ℕ :=
  Finset.univ.sum (fun p : Px => if sel p then (pxVals preds p).length else 0)

/-- `np.nanmean(predictions[mask])` for a 2-D boolean pixel mask. -/
def selNanmean (preds : List (Px → Option ℚ)) (sel : Px → Bool) : Option ℚ :=
  if selDen preds sel = 0 then none
  else some (selNum preds sel / (selDen preds sel : ℚ))

/-- Line 652: mean prediction over pixels with range < 50. -/
def mean_certain_pred (preds : List (Px → Option ℚ)) : Option ℚ :=
  selNanmean preds (fun p => optLtB (predictions_range preds p) 50)

/-- Line 653: mean prediction over pixels with range > 50. -/
def mean_uncertain_pred (preds : List (Px → Option ℚ)) : Option ℚ :=
  selNanmean preds (fun p => optGtB (predictions_range preds p) 50)

/-- `(u - c) > 0` on two possibly-NaN means (false when either is NaN). -/
def overFlag : Option ℚ → Option ℚ → Bool
  | some u, some c => decide (0 < u - c)
  | _, _ => false

/-- Line 655: `overpredict = (mean_uncertain_pred - mean_certain_pred) > 0`
(false when either mean is NaN). -/
def overpredict (preds : List (Px → Option ℚ)) : Bool :=
  overFlag (mean_uncertain_pred preds) (mean_certain_pred preds)

/-- Sum of the non-NaN values of one patch. -/
def patchNum (f : Px → Option ℚ) : ℚ :=
  Finset.univ.sum (fun p : Px => (f p).getD 0)

/-- Footprint size (count of non-NaN pixels) of one patch. -/
def patchDen (f : Px → Option ℚ) : ℕ :=
  Finset.univ.sum (fun p : Px => if (f p).isSome then 1 else 0)

/-- `np.nanmean(predictions[..., i])`. -/
def patchNanmean (f : Px → Option ℚ) : Option ℚ :=
  if patchDen f = 0 then none else some (patchNum f / (patchDen f : ℚ))

/-- Lines 659–662: the patch deviates from `mean_certain_pred` in the
direction of the tile's global bias. -/
def problem_tile (preds : List (Px → Option ℚ)) (f : Px → Option ℚ) : Bool :=
  if overpredict preds then optGtOpt (patchNanmean f) (mean_certain_pred preds)
  else optLtOpt (patchNanmean f) (mean_certain_pred preds)

/-- Pixel at block coordinates: row `56·a + b`. -/
def pxIdx (a : Fin 3) (b : Fin 56) : Fin 168 :=
  ⟨56 * a.1 + b.1, by have ha := a.2; have hb := b.2; omega⟩

/-- Line 667–668 for a full-footprint patch: the mean of the `(a, c)` 56×56
block of the reshaped range raster. -/
def block_range_mean (preds : List (Px → Option ℚ)) (a c : Fin 3) : ℚ :=
  (Finset.univ.sum (fun bd : Fin 56 × Fin 56 =>
    (predictions_range preds (pxIdx a bd.1, pxIdx c bd.2)).getD 0)) / 3136

/-- Line 669: `n_outliers = np.sum(range_i > 50)` over the 3×3 block grid
(full-footprint case). -/
def n_outliers (preds : List (Px → Option ℚ)) : ℕ :=
  (Finset.univ.filter (fun ac : Fin 3 × Fin 3 =>
    50 < block_range_mean preds ac.1 ac.2)).card

/-- The patch covers no pixel (`range_i.shape[0] > 0` fails). -/
def footprintEmpty (f : Px → Option ℚ) : Bool := decide (∀ p : Px, f p = none)

/-- The patch covers every pixel (the reshape at line 667 succeeds). -/
def footprintFull (f : Px → Option ℚ) : Bool := decide (∀ p : Px, (f p).isSome = true)

/-- Line 670's guard for one processed patch (full-footprint case): a nonempty
footprint with `n_outliers >= 2 and problem_tile`. -/
def discardPatch (preds : List (Px → Option ℚ)) (f : Px → Option ℚ) : Bool :=
  !footprintEmpty f && decide (2 ≤ n_outliers preds) && problem_tile preds f

/-- The prediction stack after the rejection loop over indices `< nLoop`
(line 658: `nLoop = predictions.shape[-1] - n_border - n_right`). -/
def rejectedPreds (preds : List (Px → Option ℚ)) (nLoop : ℕ) :
    List (Px → Option ℚ) :=
  mapWithIndex (fun i f =>
    if decide (i < nLoop) && discardPatch preds f then noPatch else f) 0 preds

/-- The weight stack after the rejection loop. -/
def rejectedMults (preds : List (Px → Option ℚ)) (mults : List (Px → ℚ))
    (nLoop : ℕ) : List (Px → ℚ) :=
  mapWithIndex (fun i m =>
    if decide (i < nLoop) && discardPatch preds (preds.getD i noPatch) then noMult
    else m) 0 mults

/-- Lines 658–672 with the `ValueError` of a partial-footprint reshape made
explicit. -/
def outlier_rejection (preds : List (Px → Option ℚ)) (mults : List (Px → ℚ))
    (nLoop : ℕ) : Except String (List (Px → Option ℚ) × List (Px → ℚ)) :=
  if (List.range nLoop).all (fun i =>
      footprintEmpty (preds.getD i noPatch) || footprintFull (preds.getD i noPatch)) then
    Except.ok (rejectedPreds preds nLoop, rejectedMults preds mults nLoop)
  else Except.error "cannot reshape array"

/-! The claim's own condition on a patch (C3) speaks of "the patch's coarse
56×56-pixel sub-blocks" having "mean per-pixel range greater than 50"; for a
patch with a partial footprint the mean over a block is the mean of the range
over the block pixels the patch covers (a NaN-aware spatial reading of the
reshape; for a full-footprint patch it coincides with the code's block mean). -/

/-- Sum of the range over the pixels of block `(a, c)` covered by `f`. -/
def blockNumMasked (preds : List (Px → Option ℚ)) (f : Px → Option ℚ)
    (a c : Fin 3) : ℚ :=
  Finset.univ.sum (fun bd : Fin 56 × Fin 56 =>
    if (f (pxIdx a bd.1, pxIdx c bd.2)).isSome then
      (predictions_range preds (pxIdx a bd.1, pxIdx c bd.2)).getD 0
    else 0)

/-- Count of the pixels of block `(a, c)` covered by `f`. -/
def blockDenMasked (f : Px → Option ℚ) (a c : Fin 3) : ℕ :=
  Finset.univ.sum (fun bd : Fin 56 × Fin 56 =>
    if (f (pxIdx a bd.1, pxIdx c bd.2)).isSome then 1 else 0)

/-- Mean range of the covered part of block `(a, c)` (NaN on an uncovered
block). -/
def blockNanmeanMasked (preds : List (Px → Option ℚ)) (f : Px → Option ℚ)
    (a c : Fin 3) : Option ℚ :=
  if blockDenMasked f a c = 0 then none
  else some (blockNumMasked preds f a c / (blockDenMasked f a c : ℚ))

/-- Number of the patch's coarse sub-blocks with mean range > 50. -/
def n_outlier_blocks (preds : List (Px → Option ℚ)) (f : Px → Option ℚ) : ℕ :=
  (Finset.univ.filter (fun ac : Fin 3 × Fin 3 =>
    optGtB (blockNanmeanMasked preds f ac.1 ac.2) 50)).card

/-- Claim C3's hypothesis on a patch: biased in the tile's global direction
and at least two coarse sub-blocks of mean range above 50. -/
def c3ClaimCond (preds : List (Px → Option ℚ)) (f : Px → Option ℚ) : Prop :=
  problem_tile preds f = true ∧ 2 ≤ n_outlier_blocks preds f

/-- Concrete interior patch: 80 on rows 0–83, 0 on rows 84–167 (full
footprint). -/
def cPatch0 : Px → Option ℚ := fun p => some (if p.1.1 < 84 then 80 else 0)

/-- Concrete left-border patch: 10 on rows 0–83, uncovered below. -/
def cPatch1 : Px → Option ℚ := fun p => if p.1.1 < 84 then some 10 else none

/-- Concrete prediction stack: one interior patch then one border patch
(`n_border = 1`, `n_right = 0`, so the rejection loop runs over index 0
only). -/
def cPreds : List (Px → Option ℚ) := [cPatch0, cPatch1]

/-- Concrete weight stack (positive weight everywhere each patch covers). -/
def cMults : List (Px → ℚ) := [fun _ => 1, fun _ => 1]

/-- Pixel (0, 0). -/
def cPt : Px := (⟨0, by norm_num⟩, ⟨0, by norm_num⟩)

/-- Concrete border environment: both tiles processed, valid rasters whose
border columns average 40 and 43 (the spec's "tiles agree" scenario). -/
def c5Env : BorderEnv :=
  ⟨true, true, some [[40, 40], [40, 40]], [[43, 43], [43, 43]], 0, SIZE, SIZE,
   [1, 2, 3, 4, 5], [1, 2, 3, 4, 5]⟩

/-- Concrete subtile list for the mode-selection loop: five median-worthy
subtiles (first date ≥ 150) followed by one unflagged subtile.  The counter
crosses the threshold at the fifth subtile, so the loop restarts and finishes
with `gap_between_years` latched. -/
def c1Subs : List Subtile :=
  [⟨[160, 170, 180, 190, 200], 10, false⟩,
   ⟨[160, 170, 180, 190, 200], 10, false⟩,
   ⟨[160, 170, 180, 190, 200], 10, false⟩,
   ⟨[160, 170, 180, 190, 200], 10, false⟩,
   ⟨[160, 170, 180, 190, 200], 10, false⟩,
   ⟨[10, 50, 100, 120, 140], 10, false⟩]

/-- Concrete subtile list with a no-data subtile (2 usable dates) next to a
healthy one. -/
def c8Subs : List Subtile :=
  [⟨[100, 200], 5, false⟩, ⟨[100, 150, 200, 250, 300], 5, false⟩]

/-! ## Theorems -/

/-! ### Generic helper lemmas -/

theorem getD_mapWithIndex {α : Type} (f : ℕ → α → α) :
    ∀ (l : List α) (k i : ℕ) (d : α), i < l.length →
      (mapWithIndex f k l).getD i d = f (k + i) (l.getD i d)
  | [], _, _, _, h => absurd h (by simp)
  | x :: xs, k, 0, d, _ => by simp [mapWithIndex]
  | x :: xs, k, i + 1, d, h => by
      have ih := getD_mapWithIndex f xs (k + 1) i d (by simpa using h)
      simpa [mapWithIndex, Nat.add_assoc, Nat.add_comm 1 i] using ih

theorem list_sum_map_div (l : List ℚ) (s : ℚ) :
    (l.map (fun m => m / s)).sum = l.sum / s := by
  induction l with
  | nil => simp
  | cons x xs ih => simp [ih, add_div]

theorem list_sum_pos (l : List ℚ) (hnn : ∀ m ∈ l, 0 ≤ m) (hex : ∃ m ∈ l, 0 < m) :
    0 < l.sum := by
  obtain ⟨m, hm, hmpos⟩ := hex
  exact lt_of_lt_of_le hmpos (List.single_le_sum hnn m hm)

/-! ### C10: nonpositive-sum inputs skip both predictors -/

/-- C10: for every input whose element sum is not strictly positive,
`predict_subtile` and `predict_gap` both return the constant
`np.full((SIZE, SIZE), 255)` patch without invoking their session. -/
theorem c10_nonpositive_sum_skips_predictors (subtile : List ℚ)
    (sess gsess : List ℚ → Fin SIZE → Fin SIZE → ℚ)
    (h : subtile.sum ≤ 0) :
    predict_subtile subtile sess = ⟨false, np_full_255⟩ ∧
    predict_gap subtile gsess = ⟨false, np_full_255⟩ ∧
    ∀ i j : Fin SIZE, np_full_255 i j = 255 := by
  refine ⟨?_, ?_, fun i j => rfl⟩ <;>
    simp [predict_subtile, predict_gap, not_lt.mpr h]

/-- Witness for C10 at the zero-filled stack. -/
theorem c10_witness :
    predict_subtile (List.replicate 5 0) (fun _ _ _ => 0) = ⟨false, np_full_255⟩ ∧
    predict_gap (List.replicate 5 0) (fun _ _ _ => 0) = ⟨false, np_full_255⟩ := by
  have h := c10_nonpositive_sum_skips_predictors (List.replicate 5 0)
    (fun _ _ _ => 0) (fun _ _ _ => 0) (by simp)
  exact ⟨h.1, h.2.1⟩

/-! ### C4: the truncation fallback of the temporal aligner -/

/-- C4: whenever removing unmatched dates would leave either series with fewer
than 5 dates, `resegment_border` takes the positional-truncation fallback and
both surviving date series have the length of the shorter input. -/
theorem c4_truncation_fallback (dates dates_neighb : List ℕ)
    (h : dates.length - (align_dates dates dates_neighb).1.length < 5 ∨
         dates_neighb.length - (align_dates dates dates_neighb).2.length < 5) :
    (align_or_truncate dates dates_neighb).fallback = true ∧
    (align_or_truncate dates dates_neighb).dates.length =
      (align_or_truncate dates dates_neighb).dates_neighb.length ∧
    (align_or_truncate dates dates_neighb).dates.length =
      min dates.length dates_neighb.length := by
  unfold align_or_truncate
  rw [if_pos h]
  refine ⟨rfl, ?_, ?_⟩ <;> simp [List.length_take] <;> try omega

/-- Witness for C4: two disjoint five/six-date series. -/
theorem c4_witness :
    (align_or_truncate [1, 2, 3, 4, 5] [6, 7, 8, 9, 10, 11]).fallback = true ∧
    (align_or_truncate [1, 2, 3, 4, 5] [6, 7, 8, 9, 10, 11]).dates.length =
      (align_or_truncate [1, 2, 3, 4, 5] [6, 7, 8, 9, 10, 11]).dates_neighb.length ∧
    (align_or_truncate [1, 2, 3, 4, 5] [6, 7, 8, 9, 10, 11]).dates.length =
      min (List.length [1, 2, 3, 4, 5]) (List.length [6, 7, 8, 9, 10, 11]) :=
  c4_truncation_fallback [1, 2, 3, 4, 5] [6, 7, 8, 9, 10, 11] (by decide)

/-! ### C9: empty output tree makes the reconciler raise -/

/-- C9: on an output directory holding zero prediction patches, the grid
enumeration of `recreate_resegmented_tifs` raises (`np.max` of an empty
array) instead of producing a raster. -/
theorem c9_empty_output_raises (folders : List (EntryName × List EntryName))
    (h : ∀ f ∈ folders, f.2 = []) :
    recreate_max_x folders =
      Except.error "zero-size array reduction operation maximum" := by
  unfold recreate_max_x
  have hfil : folders.filter
      (fun f => !isRightEntry f.1 && !isDSEntry f.1 && decide (0 < f.2.length)) = [] := by
    rw [List.filter_eq_nil_iff]
    intro f hf
    simp [h f hf]
  rw [hfil]
  rfl

/-- Witness for C9: a folder tree with two empty subfolders. -/
theorem c9_witness :
    recreate_max_x [(EntryName.num 3, []), (EntryName.rightName 7, [])] =
      Except.error "zero-size array reduction operation maximum" :=
  c9_empty_output_raises [(EntryName.num 3, []), (EntryName.rightName 7, [])]
    (by decide)

/-! ### C6: weight normalization and the 255 sentinel -/

/-- C6: at a pixel covered by at least one retained patch (some weight
positive) the normalized blend weights are all defined and sum to exactly 1,
and a pixel covered by no patch at all fuses to the 255 sentinel byte. -/
theorem c6_weight_normalization (ms : List ℚ) (preds : List (Option ℚ))
    (hnn : ∀ m ∈ ms, 0 ≤ m) (hex : ∃ m ∈ ms, 0 < m)
    (hall : ∀ o ∈ preds, o = none) :
    ((normalizeMults ms).map (fun o => o.getD 0)).sum = 1 ∧
    (∀ o ∈ normalizeMults ms, o.isSome = true) ∧
    fusedByte preds ms = 255 := by
  have hs : 0 < ms.sum := list_sum_pos ms hnn hex
  have hns : ms.sum ≠ 0 := ne_of_gt hs
  refine ⟨?_, ?_, ?_⟩
  · have : (normalizeMults ms).map (fun o => o.getD 0) =
        ms.map (fun m => m / ms.sum) := by
      simp [normalizeMults, hns, List.map_map, Function.comp]
    rw [this, list_sum_map_div, div_self hns]
  · intro o ho
    simp only [normalizeMults, List.mem_map] at ho
    obtain ⟨m, _, hmo⟩ := ho
    rw [if_neg hns] at hmo
    simp [← hmo]
  · have hmasked : ∀ o ∈ preds.map maskGt100, o = none := by
      intro o ho
      simp only [List.mem_map] at ho
      obtain ⟨p, hp, hpo⟩ := ho
      rw [hall p hp] at hpo
      simpa [maskGt100] using hpo.symm
    have hcount : countNone (preds.map maskGt100) = preds.length := by
      unfold countNone
      rw [List.filter_eq_self.mpr (fun o ho => by simp [hmasked o ho])]
      simp
    unfold fusedByte fusePixel
    rw [if_pos hcount]
    norm_num [npUint8]
    decide

/-- Witness for C6 at weights `[2, 6]` and an uncovered pixel. -/
theorem c6_witness :
    ((normalizeMults [2, 6]).map (fun o => o.getD 0)).sum = 1 ∧
    (∀ o ∈ normalizeMults [2, 6], o.isSome = true) ∧
    fusedByte [none, none] [2, 6] = 255 :=
  c6_weight_normalization [2, 6] [none, none] (by norm_num)
    ⟨2, by norm_num⟩ (by simp)

/-! ### C5: the discontinuity check gates merge and inference -/

/-- C5: `resegment_border` reaches the merge/inference phase only when the
masked border-column means differ by more than 15, and whenever the test does
not exceed 15 it returns 0 without invoking `process_subtiles` (hence no
predictor). -/
theorem c5_border_discontinuity_gate :
    (∀ env : BorderEnv, (resegment_border env).2 = true →
        border_diff_exceeds env = true) ∧
    (∀ env : BorderEnv, border_diff_exceeds env = false →
        resegment_border env = (0, false)) := by
  have hb : ∀ env : BorderEnv, border_diff_exceeds env = false →
      resegment_border env = (0, false) := by
    intro env hdiff
    unfold resegment_border
    by_cases hpp : env.processed ∧ env.processed_neighbor
    · rw [if_pos hpp]
      cases htif : env.tile_tif with
      | none => rfl
      | some t =>
        by_cases hs : env.smooth = 1
        · rw [if_pos hs]
        · rw [if_neg hs, hdiff]
          rfl
    · rw [if_neg hpp]
  refine ⟨?_, hb⟩
  intro env h
  by_contra hne
  have hfalse : border_diff_exceeds env = false := by
    cases hcase : border_diff_exceeds env with
    | false => rfl
    | true => exact absurd hcase hne
  rw [hb env hfalse] at h
  exact Bool.false_ne_true h

/-- Witness for C5: border means 40 and 43 (difference 3 ≤ 15) make the
orchestrator skip. -/
theorem c5_witness :
    border_diff_exceeds c5Env = false ∧ resegment_border c5Env = (0, false) := by
  have hd : border_diff_exceeds c5Env = false := by
    simp only [border_diff_exceeds, c5Env, right_mean, left_mean, nanmeanList,
      maskHigh, List.map, List.filterMap, List.headD, List.getLastD, id]
    norm_num [decide_eq_false_iff_not]
  exact ⟨hd, c5_border_discontinuity_gate.2 c5Env hd⟩

/-! ### C2: the speckle-suppression window is never zeroed (source bug) -/

/-- C2 (code bug): the 3×3 window of `cleanupInput` at offset (0, 0) satisfies
the speckle rule's condition (maximum 30 < 35 and nine pixels strictly
between 10 and 35, a count within 7–9), yet the raster returned by the
cleanup-and-threshold stage still holds 30 there: the source's `window = 0.`
(line 692) rebinds a local name instead of writing into the array, so the
claimed zeroing never happens. -/
theorem c2_cleanup_window_not_zeroed :
    (winMax cleanupInput 0 0 < 35 ∧ 6 < sum_under_35 cleanupInput 0 0 ∧
      sum_under_35 cleanupInput 0 0 < 10) ∧
    recreate_cleanup 4 4 cleanupInput 0 0 = 30 ∧
    recreate_cleanup 4 4 cleanupInput 1 1 = 30 := by
  refine ⟨⟨?_, ?_, ?_⟩, ?_, ?_⟩ <;> decide

/-! ### Loop invariants for `process_subtiles` (C1, C8) -/

theorem findMode_cons (k : ℕ) (v : PredMode) (r : List (ℕ × PredMode)) (i : ℕ) :
    findMode ((k, v) :: r) i = if i = k then some v else findMode r i := rfl

theorem findMode_mem :
    ∀ (l : List (ℕ × PredMode)) (i : ℕ) (p : PredMode),
      findMode l i = some p → (i, p) ∈ l
  | [], _, _, h => by simp [findMode] at h
  | (k, v) :: r, i, p, h => by
      rw [findMode_cons] at h
      by_cases hik : i = k
      · rw [if_pos hik] at h
        simp only [Option.some.injEq] at h
        subst hik
        subst h
        exact List.mem_cons_self _ _
      · rw [if_neg hik] at h
        exact List.mem_cons_of_mem _ (findMode_mem r i p h)

theorem usable_not_noImages (st : Subtile) (h : usableSubtile st) :
    noImagesB st = false := by
  obtain ⟨hc, hd⟩ := h
  simp [noImagesB, effDates, hc]
  omega

/-- When the reset guard fires, the flag was not yet latched. -/
theorem stepReset_gap_false (subs : List Subtile) (s : LoopState)
    (h : stepReset subs s = true) : s.gapBetweenYears = false := by
  unfold stepReset at h
  simp only [Bool.and_eq_true, Bool.not_eq_true'] at h
  exact h.1.2

/-- The loop index never exceeds the subtile count. -/
theorem stepSubtile_t_le (subs : List Subtile) (s : LoopState)
    (h : s.t < subs.length) : (stepSubtile subs s).t ≤ subs.length := by
  unfold stepSubtile
  split_ifs <;> simp <;> omega

/-- The loop measure strictly decreases at every executed iteration. -/
theorem stepSubtile_measure (subs : List Subtile) (s : LoopState)
    (h : s.t < subs.length) :
    loopMeasure subs (stepSubtile subs s) < loopMeasure subs s := by
  unfold stepSubtile
  by_cases hni : noImagesB (subs.getD s.t defaultSubtile) = true
  · rw [if_pos hni]
    unfold loopMeasure
    by_cases hg : s.gapBetweenYears = true <;> simp [hg] <;> omega
  · rw [if_neg hni]
    by_cases hreset : stepReset subs s = true
    · rw [if_pos hreset]
      have hgf := stepReset_gap_false subs s hreset
      unfold loopMeasure
      simp [hgf]
      split_ifs <;> omega
    · rw [if_neg hreset]
      unfold loopMeasure
      by_cases hg : s.gapBetweenYears = true <;> simp [hg] <;> omega

/-- With fuel at least the measure, the loop runs to completion (`t` ends at
the subtile count). -/
theorem runLoopAux_completes (subs : List Subtile) :
    ∀ (fuel : ℕ) (s : LoopState), loopMeasure subs s ≤ fuel →
      s.t ≤ subs.length → (runLoopAux subs fuel s).t = subs.length := by
  intro fuel
  induction fuel with
  | zero =>
    intro s hm ht
    unfold loopMeasure at hm
    show s.t = subs.length
    by_cases hg : s.gapBetweenYears = true <;> simp [hg] at hm <;> omega
  | succ f ih =>
    intro s hm ht
    unfold runLoopAux
    split_ifs with h
    · exact ih (stepSubtile subs s)
        (by have := stepSubtile_measure subs s h; omega)
        (stepSubtile_t_le subs s h)
    · omega

/-- Step-closed predicates are invariants of the fueled loop. -/
theorem runLoopAux_invariant (subs : List Subtile) (P : LoopState → Prop)
    (hstep : ∀ s, s.t < subs.length → P s → P (stepSubtile subs s)) :
    ∀ (fuel : ℕ) (s : LoopState), P s → P (runLoopAux subs fuel s) := by
  intro fuel
  induction fuel with
  | zero => intro s hp; exact hp
  | succ f ih =>
    intro s hp
    unfold runLoopAux
    split_ifs with h
    · exact ih (stepSubtile subs s) (hstep s h hp)
    · exact hp

theorem stepModeWith_true (subs : List Subtile) (s : LoopState) :
    stepModeWith subs s true = PredMode.median := by
  unfold stepModeWith
  exact if_pos (Or.inr rfl)

/-- Once the flag is latched, every already-revisited index holds its final
`expectedMode` prediction; this is preserved by each loop step. -/
theorem pgood_step (subs : List Subtile) (s : LoopState) (_hlt : s.t < subs.length)
    (hP : s.gapBetweenYears = true → ∀ i, i < s.t →
      findMode s.outs i = some (expectedMode (subs.getD i defaultSubtile))) :
    (stepSubtile subs s).gapBetweenYears = true →
      ∀ i, i < (stepSubtile subs s).t →
        findMode (stepSubtile subs s).outs i =
          some (expectedMode (subs.getD i defaultSubtile)) := by
  unfold stepSubtile
  by_cases hni : noImagesB (subs.getD s.t defaultSubtile) = true
  · rw [if_pos hni]
    intro hg i hi
    simp only at hg hi
    rw [findMode_cons]
    by_cases hik : i = s.t
    · rw [if_pos hik, hik]
      rw [expectedMode, if_pos hni]
    · rw [if_neg hik]
      exact hP hg i (by omega)
  · rw [if_neg hni]
    by_cases hreset : stepReset subs s = true
    · rw [if_pos hreset]
      intro _ i hi
      simp only at hi
      by_cases hst : 1 < s.t + 1
      · rw [if_pos hst] at hi
        omega
      · rw [if_neg hst] at hi
        have hs0 : s.t = 0 := by omega
        have hi0 : i = 0 := by omega
        rw [findMode_cons, hi0, hs0, if_pos rfl, stepModeWith_true]
        rw [expectedMode, if_neg (by rw [hs0] at hni; exact hni)]
    · rw [if_neg hreset]
      intro hg i hi
      simp only at hg hi
      rw [findMode_cons]
      by_cases hik : i = s.t
      · rw [if_pos hik, hik, hg, stepModeWith_true]
        rw [expectedMode, if_neg hni]
      · rw [if_neg hik]
        exact hP hg i (by omega)

/-- Every logged write at a no-data subtile is the all-255 patch; preserved by
each loop step. -/
theorem pnod_step (subs : List Subtile) (s : LoopState) (_hlt : s.t < subs.length)
    (hP : ∀ i p, (i, p) ∈ s.outs →
      noImagesB (subs.getD i defaultSubtile) = true → p = PredMode.noData) :
    ∀ i p, (i, p) ∈ (stepSubtile subs s).outs →
      noImagesB (subs.getD i defaultSubtile) = true → p = PredMode.noData := by
  unfold stepSubtile
  by_cases hni : noImagesB (subs.getD s.t defaultSubtile) = true
  · rw [if_pos hni]
    intro i p hmem hnd
    rcases List.mem_cons.mp hmem with heq | htail
    · exact (Prod.mk.injEq _ _ _ _ ▸ heq).2
    · exact hP i p htail hnd
  · rw [if_neg hni]
    by_cases hreset : stepReset subs s = true
    · rw [if_pos hreset]
      intro i p hmem hnd
      rcases List.mem_cons.mp hmem with heq | htail
      · have hieq : i = s.t := congrArg Prod.fst heq
        rw [hieq] at hnd
        exact absurd hnd hni
      · exact hP i p htail hnd
    · rw [if_neg hreset]
      intro i p hmem hnd
      rcases List.mem_cons.mp hmem with heq | htail
      · have hieq : i = s.t := congrArg Prod.fst heq
        rw [hieq] at hnd
        exact absurd hnd hni
      · exact hP i p htail hnd

/-- Every index below the loop counter has been written at least once;
preserved by each loop step. -/
theorem pcover_step (subs : List Subtile) (s : LoopState) (_hlt : s.t < subs.length)
    (hP : ∀ i, i < s.t → (findMode s.outs i).isSome = true) :
    ∀ i, i < (stepSubtile subs s).t →
      (findMode (stepSubtile subs s).outs i).isSome = true := by
  have hcons : ∀ (v : PredMode) (i : ℕ), i ≤ s.t → i < s.t + 1 →
      (findMode ((s.t, v) :: s.outs) i).isSome = true := by
    intro v i _ hi1
    rw [findMode_cons]
    by_cases hik : i = s.t
    · rw [if_pos hik]
      rfl
    · rw [if_neg hik]
      exact hP i (by omega)
  unfold stepSubtile
  by_cases hni : noImagesB (subs.getD s.t defaultSubtile) = true
  · rw [if_pos hni]
    intro i hi
    simp only at hi
    exact hcons _ i (by omega) hi
  · rw [if_neg hni]
    by_cases hreset : stepReset subs s = true
    · rw [if_pos hreset]
      intro i hi
      simp only at hi
      by_cases hst : 1 < s.t + 1
      · rw [if_pos hst] at hi
        omega
      · rw [if_neg hst] at hi
        exact hcons _ i (by omega) (by omega)
    · rw [if_neg hreset]
      intro i hi
      simp only at hi
      exact hcons _ i (by omega) hi

/-! ### C1: the median-mode state machine -/

/-- C1: within one tile run of `process_subtiles` — (1) every subtile with at
least 3 usable dates bumps the median counter exactly when it is
median-worthy (first date ≥ 150, or last date ≤ 215, or maximum gap > 265, or
fewer than 5 dates); (2) the `gap_between_years` latch is permanent; (3) the
loop terminates with every subtile processed; and (4) if the threshold was
crossed (flag latched), the loop restarted so that every subtile's final
saved prediction is the median branch (or the no-data patch), i.e. no
temporal prediction survives — modes are never mixed. -/
theorem c1_median_mode_machine (subs : List Subtile) :
    (∀ s : LoopState, usableSubtile (subs.getD s.t defaultSubtile) →
        (stepSubtile subs s).nMedian = s.nMedian +
          (if medianWorthy (subs.getD s.t defaultSubtile) = true then 1 else 0)) ∧
    (∀ s : LoopState, s.gapBetweenYears = true →
        (stepSubtile subs s).gapBetweenYears = true) ∧
    (process_subtiles_modes subs).t = subs.length ∧
    ((process_subtiles_modes subs).gapBetweenYears = true →
        ∀ i, i < subs.length →
          findMode (process_subtiles_modes subs).outs i =
            some (expectedMode (subs.getD i defaultSubtile))) := by
  have hT : (process_subtiles_modes subs).t = subs.length :=
    runLoopAux_completes subs (2 * subs.length + 1) ⟨0, 0, false, []⟩
      (by unfold loopMeasure; simp; omega) (by simp)
  refine ⟨?_, ?_, hT, ?_⟩
  · intro s hus
    have hni := usable_not_noImages _ hus
    unfold stepSubtile
    rw [if_neg (by rw [hni]; exact Bool.false_ne_true)]
    by_cases hreset : stepReset subs s = true
    · rw [if_pos hreset]
      show stepN subs s = _
      unfold stepN
      split_ifs <;> omega
    · rw [if_neg hreset]
      show stepN subs s = _
      unfold stepN
      split_ifs <;> omega
  · intro s hg
    unfold stepSubtile
    split_ifs <;> simp [hg]
  · have hfin : (process_subtiles_modes subs).gapBetweenYears = true →
        ∀ i, i < (process_subtiles_modes subs).t →
          findMode (process_subtiles_modes subs).outs i =
            some (expectedMode (subs.getD i defaultSubtile)) :=
      runLoopAux_invariant subs
        (fun s => s.gapBetweenYears = true → ∀ i, i < s.t →
          findMode s.outs i = some (expectedMode (subs.getD i defaultSubtile)))
        (fun s h hp => pgood_step subs s h hp)
        (2 * subs.length + 1) ⟨0, 0, false, []⟩ (by intro h i hi; simp at hi)
    intro hg i hi
    exact hfin hg i (by rw [hT]; exact hi)

/-- Witness for C1: six subtiles, the first five median-worthy.  The counter
crosses the threshold at the fifth, the flag latches, the loop restarts, and
every subtile — including the unflagged sixth and the subtiles first
predicted before the restart — ends on the median branch. -/
theorem c1_witness :
    (process_subtiles_modes c1Subs).gapBetweenYears = true ∧
    findMode (process_subtiles_modes c1Subs).outs 0 = some PredMode.median ∧
    findMode (process_subtiles_modes c1Subs).outs 5 = some PredMode.median := by
  have hg : (process_subtiles_modes c1Subs).gapBetweenYears = true := by decide
  have h0 := (c1_median_mode_machine c1Subs).2.2.2 hg 0 (by decide)
  have h5 := (c1_median_mode_machine c1Subs).2.2.2 hg 5 (by decide)
  refine ⟨hg, ?_, ?_⟩
  · rw [h0]
    decide
  · rw [h5]
    decide

/-! ### C8: no-data subtiles always yield the all-255 patch -/

/-- C8: a subtile with fewer than 3 usable dates after filtering, or whose
compositing raised, ends the tile run with the all-255 no-data patch as its
saved prediction — neither the temporal nor the median predictor is invoked
for it, whatever the mode state. -/
theorem c8_no_data_shortcircuit (subs : List Subtile) (i : ℕ)
    (hi : i < subs.length)
    (hnd : noImagesB (subs.getD i defaultSubtile) = true) :
    findMode (process_subtiles_modes subs).outs i = some PredMode.noData ∧
    (∀ a b : Fin SIZE, np_full_255 a b = 255) := by
  have hcover : ∀ j, j < (process_subtiles_modes subs).t →
      (findMode (process_subtiles_modes subs).outs j).isSome = true :=
    runLoopAux_invariant subs
      (fun s => ∀ j, j < s.t → (findMode s.outs j).isSome = true)
      (fun s h hp => pcover_step subs s h hp)
      (2 * subs.length + 1) ⟨0, 0, false, []⟩ (by intro j hj; simp at hj)
  have hnod : ∀ j p, (j, p) ∈ (process_subtiles_modes subs).outs →
      noImagesB (subs.getD j defaultSubtile) = true → p = PredMode.noData :=
    runLoopAux_invariant subs
      (fun s => ∀ j p, (j, p) ∈ s.outs →
        noImagesB (subs.getD j defaultSubtile) = true → p = PredMode.noData)
      (fun s h hp => pnod_step subs s h hp)
      (2 * subs.length + 1) ⟨0, 0, false, []⟩ (by intro j p hj _; simp at hj)
  have hT : (process_subtiles_modes subs).t = subs.length :=
    runLoopAux_completes subs (2 * subs.length + 1) ⟨0, 0, false, []⟩
      (by unfold loopMeasure; simp; omega) (by simp)
  refine ⟨?_, fun a b => rfl⟩
  have hsome := hcover i (by rw [hT]; exact hi)
  cases hfm : findMode (process_subtiles_modes subs).outs i with
  | none => rw [hfm] at hsome; simp at hsome
  | some p =>
    have hmem := findMode_mem _ i p hfm
    rw [hnod i p hmem hnd]

/-- Witness for C8: a subtile with 2 usable dates, beside a healthy one. -/
theorem c8_witness :
    findMode (process_subtiles_modes c8Subs).outs 0 = some PredMode.noData :=
  (c8_no_data_shortcircuit c8Subs 0 (by decide) (by decide)).1

/-! ### C7: grid geometry of `make_tiles_right_neighb` -/

theorem getD_append_lt {α : Type} :
    ∀ (l1 l2 : List α) (i : ℕ) (d : α), i < l1.length →
      (l1 ++ l2).getD i d = l1.getD i d
  | [], _, i, d, h => absurd h (by simp)
  | x :: xs, l2, 0, d, _ => rfl
  | x :: xs, l2, i + 1, d, h => getD_append_lt xs l2 i d (by simpa using h)

theorem getD_append_len {α : Type} :
    ∀ (l1 l2 : List α) (d : α), (l1 ++ l2).getD l1.length d = l2.getD 0 d
  | [], l2, d => rfl
  | x :: xs, l2, d => getD_append_len xs l2 d

theorem getD_range_map {α : Type} (f : ℕ → α) :
    ∀ (n i : ℕ) (d : α), i < n → ((List.range n).map f).getD i d = f i := by
  intro n
  induction n with
  | zero => intro i d h; omega
  | succ m ih =>
    intro i d h
    rw [List.range_succ, List.map_append]
    by_cases hc : i < m
    · rw [getD_append_lt _ _ _ _ (by simpa using hc)]
      exact ih i d hc
    · have him : i = m := by omega
      subst him
      have hlen : ((List.range i).map f).length = i := by simp
      have hal := getD_append_len ((List.range i).map f) ([i].map f) d
      rw [hlen] at hal
      rw [hal]
      rfl

theorem getD_map_pair (c : ℕ) :
    ∀ (l : List ℕ) (i : ℕ), i < l.length →
      (l.map (fun y => (y, c))).getD i (0, 0) = (l.getD i 0, c)
  | [], i, h => absurd h (by simp)
  | x :: xs, 0, _ => rfl
  | x :: xs, i + 1, h => getD_map_pair c xs i (by simpa using h)

theorem insertOrd_of_le (x : ℕ) (l : List ℕ) (h : ∀ y ∈ l, x ≤ y) :
    insertOrd x l = x :: l := by
  cases l with
  | nil => rfl
  | cons y r =>
    unfold insertOrd
    rw [if_pos (h y (List.mem_cons_self y r))]

theorem np_sort_sorted_id : ∀ l : List ℕ, l.Pairwise (· ≤ ·) → np_sort l = l := by
  intro l h
  induction l with
  | nil => rfl
  | cons x xs ih =>
    have hx : ∀ y ∈ xs, x ≤ y := (List.pairwise_cons.mp h).1
    have htl := (List.pairwise_cons.mp h).2
    show insertOrd x (np_sort xs) = x :: xs
    rw [ih htl]
    exact insertOrd_of_le x xs hx

theorem dedupSorted_sorted_id :
    ∀ l : List ℕ, l.Pairwise (· < ·) → dedupSorted l = l
  | [], _ => rfl
  | [x], _ => rfl
  | x :: y :: r, h => by
      have hxy : x < y := (List.pairwise_cons.mp h).1 y (List.mem_cons_self y r)
      unfold dedupSorted
      rw [if_neg (Nat.ne_of_lt hxy)]
      rw [dedupSorted_sorted_id (y :: r) (List.pairwise_cons.mp h).2]

theorem tileUnique_sorted_id (l : List ℕ) (h : l.Pairwise (· < ·)) :
    tileUnique l = l := by
  unfold tileUnique np_unique
  rw [np_sort_sorted_id l (h.imp le_of_lt), dedupSorted_sorted_id l h]
  cases l with
  | nil => rfl
  | cons x xs =>
    rw [Nat.div_self (by simp)]
    simp

theorem arange_elt_lt (M g i : ℕ) (hg : 0 < g) (hi : i < (M + g - 1) / g) :
    i * g < M := by
  have h2 : (i + 1) * g ≤ M + g - 1 := (Nat.le_div_iff_mul_le hg).mp hi
  rw [Nat.succ_mul] at h2
  omega

theorem tiles_folder_y_pairwise (H : ℕ) (h : 169 ≤ H) :
    (tiles_folder_y H).Pairwise (· < ·) := by
  have hS : SIZE = 168 := rfl
  have hg : 0 < ceil4 (H - SIZE) := by unfold ceil4; omega
  have hM : 1 ≤ H - SIZE := by omega
  unfold tiles_folder_y np_arange
  rw [List.pairwise_append]
  refine ⟨?_, by simp, ?_⟩
  · rw [List.pairwise_map]
    exact (List.pairwise_lt_range _).imp
      (fun hab => (Nat.mul_lt_mul_right hg).mpr hab)
  · intro a ha b hb
    rw [List.mem_map] at ha
    obtain ⟨i, hi, rfl⟩ := ha
    rw [List.mem_singleton] at hb
    subst hb
    exact arange_elt_lt _ _ i hg (List.mem_range.mp hi)

theorem c7_folder_eq (H : ℕ) (h : 169 ≤ H) :
    c7_folder H = (tiles_folder_y H).map (fun y => (y, SIZE + 7)) := by
  unfold c7_folder make_tiles_right_neighb tiles_folder_of
  rw [tileUnique_sorted_id _ (tiles_folder_y_pairwise H h)]

theorem c7_read_eq (H : ℕ) (h : 169 ≤ H) :
    c7_read H = tiles_array_of (tiles_folder_y H) := by
  unfold c7_read make_tiles_right_neighb
  rw [tileUnique_sorted_id _ (tiles_folder_y_pairwise H h)]

theorem tiles_folder_y_getD_ge (H i : ℕ) (h : 193 ≤ H) (hi1 : 1 ≤ i)
    (hin : i < (tiles_folder_y H).length) : 7 ≤ (tiles_folder_y H).getD i 0 := by
  have hS : SIZE = 168 := rfl
  have hg : 0 < ceil4 (H - SIZE) := by unfold ceil4; omega
  have hg7 : 7 ≤ ceil4 (H - SIZE) := by unfold ceil4; omega
  unfold tiles_folder_y np_arange at hin ⊢
  have hlen : ((List.range ((H - SIZE + ceil4 (H - SIZE) - 1) / ceil4 (H - SIZE))).map
      (fun i => i * ceil4 (H - SIZE))).length =
      (H - SIZE + ceil4 (H - SIZE) - 1) / ceil4 (H - SIZE) := by simp
  by_cases hcase : i < (H - SIZE + ceil4 (H - SIZE) - 1) / ceil4 (H - SIZE)
  · rw [getD_append_lt _ _ _ _ (by rw [hlen]; exact hcase)]
    rw [getD_range_map _ _ i 0 hcase]
    have h1 : 1 * ceil4 (H - SIZE) ≤ i * ceil4 (H - SIZE) :=
      Nat.mul_le_mul_right _ hi1
    omega
  · have hieq : i = (H - SIZE + ceil4 (H - SIZE) - 1) / ceil4 (H - SIZE) := by
      rw [List.length_append, hlen] at hin
      simp only [List.length_singleton] at hin
      omega
    have hal := getD_append_len ((List.range ((H - SIZE + ceil4 (H - SIZE) - 1) /
        ceil4 (H - SIZE))).map (fun i => i * ceil4 (H - SIZE))) [H - SIZE] 0
    rw [hlen] at hal
    rw [hieq, hal]
    show 7 ≤ H - SIZE
    omega

/-- C7 (amended): for every tile extent `H ≥ 193` (margin-sized stride), each
read window of `make_tiles_right_neighb`, stripped of its 7-px margin
(trailing side only at index 0, leading side only at the last index, both
sides in the interior), is exactly the same-index storage extent of `SIZE`
pixels; and — for extents up to 840 px, where the stride cannot exceed
`SIZE` — the storage extents cover the whole tile without gaps.  (They
deliberately overlap; see the counterexample.) -/
theorem c7_read_windows_reconstruct (H : ℕ) (hH : 193 ≤ H) :
    (∀ i, i < (c7_folder H).length →
        strip_margin (c7_folder H).length i ((c7_read H).getD i (0, 0)) =
          (((c7_folder H).getD i (0, 0)).1, SIZE)) ∧
    (H ≤ 840 → ∀ k, k < H → coversPx ((c7_folder H).map Prod.fst) k) := by
  have hS : SIZE = 168 := rfl
  have h169 : 169 ≤ H := by omega
  have hfolder := c7_folder_eq H h169
  have hread := c7_read_eq H h169
  have hg : 0 < ceil4 (H - SIZE) := by unfold ceil4; omega
  constructor
  · intro i hi
    have hiys : i < (tiles_folder_y H).length := by
      rw [hfolder] at hi
      simpa using hi
    have hlenf : (c7_folder H).length = (tiles_folder_y H).length := by
      rw [hfolder]
      simp
    rw [hread]
    unfold tiles_array_of
    rw [getD_range_map _ _ i (0, 0) hiys]
    rw [hfolder, getD_map_pair (SIZE + 7) _ i hiys]
    unfold strip_margin
    simp only [List.length_map]
    by_cases h0 : i = 0
    · rw [if_pos (Or.inl h0), if_pos h0, if_pos h0]
      rw [Prod.mk.injEq]
      exact ⟨rfl, by omega⟩
    · have h7 : 7 ≤ (tiles_folder_y H).getD i 0 :=
        tiles_folder_y_getD_ge H i hH (by omega) hiys
      rw [if_neg h0, if_neg h0]
      by_cases hlast : i = (tiles_folder_y H).length - 1
      · rw [if_pos (Or.inr hlast), if_pos hlast]
        rw [Prod.mk.injEq]
        constructor
        · show (tiles_folder_y H).getD i 0 - 7 + 7 = _
          omega
        · show SIZE + 7 - 7 = SIZE
          omega
      · rw [if_neg hlast,
            if_neg (fun hc => hc.elim (fun h1 => h0 h1) (fun h2 => hlast h2))]
        rw [Prod.mk.injEq]
        constructor
        · show (tiles_folder_y H).getD i 0 - 7 + 7 = _
          omega
        · show SIZE + 14 - 14 = SIZE
          omega
  · intro h840 k hk
    have hmapfst : (c7_folder H).map Prod.fst = tiles_folder_y H := by
      rw [hfolder, List.map_map]
      exact List.map_id _
    rw [hmapfst]
    unfold coversPx
    by_cases hkM : k < H - SIZE
    · refine ⟨(k / ceil4 (H - SIZE)) * ceil4 (H - SIZE), ?_, ?_, ?_⟩
      · unfold tiles_folder_y np_arange
        apply List.mem_append_left
        rw [List.mem_map]
        refine ⟨k / ceil4 (H - SIZE), List.mem_range.mpr ?_, rfl⟩
        have hfloor : (k / ceil4 (H - SIZE)) * ceil4 (H - SIZE) ≤ k :=
          Nat.div_mul_le_self k _
        apply (Nat.le_div_iff_mul_le hg).mpr
        rw [Nat.succ_mul]
        omega
      · exact Nat.div_mul_le_self k _
      · have h1 := Nat.div_add_mod k (ceil4 (H - SIZE))
        rw [Nat.mul_comm] at h1
        have h2 : k % ceil4 (H - SIZE) < ceil4 (H - SIZE) := Nat.mod_lt k hg
        have h3 : ceil4 (H - SIZE) ≤ SIZE := by unfold ceil4; omega
        omega
    · refine ⟨H - SIZE, ?_, by omega, by omega⟩
      unfold tiles_folder_y
      exact List.mem_append_right _ (List.mem_singleton.mpr rfl)

/-- Witness for C7 at `H = 368` (stride 50): window 1 reconstructs its storage
extent, and pixel 367 is covered. -/
theorem c7_witness :
    strip_margin (c7_folder 368).length 1 ((c7_read 368).getD 1 (0, 0)) =
      (((c7_folder 368).getD 1 (0, 0)).1, SIZE) ∧
    coversPx ((c7_folder 368).map Prod.fst) 367 :=
  ⟨(c7_read_windows_reconstruct 368 (by norm_num)).1 1 (by decide),
   (c7_read_windows_reconstruct 368 (by norm_num)).2 (by norm_num) 367 (by norm_num)⟩

/-- Counterexample to C7 as stated: at tile extent 841 (stride 169) the
storage windows neither tile the extent (pixel 168 is uncovered) nor are they
pairwise disjoint (windows at offsets 507 and 673 overlap); the storage
windows of practical extents (stride below `SIZE`) always overlap. -/
theorem c7_counterexample :
    ((168 : ℕ) < 841 ∧ ¬ coversPx ((c7_folder 841).map Prod.fst) 168) ∧
    ¬ storageDisjoint ((c7_folder 841).map Prod.fst) := by
  refine ⟨⟨by norm_num, ?_⟩, ?_⟩
  · unfold coversPx
    decide
  · unfold storageDisjoint
    decide

/-! ### C3: outlier rejection — evaluation of the concrete stack -/

theorem sum_px_fst_q (g : Fin 168 → ℚ) :
    (Finset.univ.sum fun p : Px => g p.1) = 168 * Finset.univ.sum g := by
  rw [Fintype.sum_prod_type]
  simp only [Finset.sum_const, Finset.card_univ, Fintype.card_fin, nsmul_eq_mul]
  rw [← Finset.mul_sum]
  ring

theorem sum_px_fst_nat (g : Fin 168 → ℕ) :
    (Finset.univ.sum fun p : Px => g p.1) = 168 * Finset.univ.sum g := by
  rw [Fintype.sum_prod_type]
  simp only [Finset.sum_const, Finset.card_univ, Fintype.card_fin, smul_eq_mul]
  rw [← Finset.mul_sum]

theorem sum_bd_fst_q (g : Fin 56 → ℚ) :
    (Finset.univ.sum fun bd : Fin 56 × Fin 56 => g bd.1) =
      56 * Finset.univ.sum g := by
  rw [Fintype.sum_prod_type]
  simp only [Finset.sum_const, Finset.card_univ, Fintype.card_fin, nsmul_eq_mul]
  rw [← Finset.mul_sum]
  ring

theorem sum_bd_fst_nat (g : Fin 56 → ℕ) :
    (Finset.univ.sum fun bd : Fin 56 × Fin 56 => g bd.1) =
      56 * Finset.univ.sum g := by
  rw [Fintype.sum_prod_type]
  simp only [Finset.sum_const, Finset.card_univ, Fintype.card_fin, smul_eq_mul]
  rw [← Finset.mul_sum]

theorem cPxVals (p : Px) :
    pxVals cPreds p = if p.1.1 < 84 then [80, 10] else [0] := by
  by_cases h : p.1.1 < 84 <;> simp [pxVals, cPreds, cPatch0, cPatch1, h]

theorem cRange (p : Px) :
    predictions_range cPreds p = some (if p.1.1 < 84 then 70 else 0) := by
  by_cases h : p.1.1 < 84 <;>
    simp [predictions_range, cPxVals, h, listMaxQ, listMinQ] <;> norm_num

theorem sum_px_row_ite_q (a b : ℚ) :
    (Finset.univ.sum fun p : Px => if p.1.1 < 84 then a else b) =
      14112 * a + 14112 * b := by
  rw [Fintype.sum_prod_type]
  dsimp only
  simp only [Finset.sum_const, Finset.card_univ, Fintype.card_fin, nsmul_eq_mul,
    mul_ite]
  rw [Finset.sum_ite]
  simp only [Finset.sum_const, nsmul_eq_mul]
  rw [show (Finset.filter (fun x : Fin 168 => x.1 < 84) Finset.univ).card = 84
      from by decide,
    show (Finset.filter (fun x : Fin 168 => ¬x.1 < 84) Finset.univ).card = 84
      from by decide]
  ring

theorem sum_px_row_ite_nat (a b : ℕ) :
    (Finset.univ.sum fun p : Px => if p.1.1 < 84 then a else b) =
      14112 * a + 14112 * b := by
  rw [Fintype.sum_prod_type]
  dsimp only
  simp only [Finset.sum_const, Finset.card_univ, Fintype.card_fin, smul_eq_mul,
    mul_ite]
  rw [Finset.sum_ite]
  simp only [Finset.sum_const, nsmul_eq_mul]
  rw [show (Finset.filter (fun x : Fin 168 => x.1 < 84) Finset.univ).card = 84
      from by decide,
    show (Finset.filter (fun x : Fin 168 => ¬x.1 < 84) Finset.univ).card = 84
      from by decide]
  ring

theorem cMeanCertain : mean_certain_pred cPreds = some 0 := by
  have hnum : selNum cPreds
      (fun p => optLtB (predictions_range cPreds p) 50) = 0 := by
    unfold selNum
    have hpt : ∀ p : Px,
        (if optLtB (predictions_range cPreds p) 50 then (pxVals cPreds p).sum
          else 0) = 0 := by
      intro p
      rw [cRange, cPxVals]
      by_cases h : p.1.1 < 84 <;> simp [optLtB, h] <;> norm_num
    rw [Finset.sum_congr rfl (fun p _ => hpt p)]
    exact Finset.sum_const_zero
  have hden : selDen cPreds
      (fun p => optLtB (predictions_range cPreds p) 50) = 14112 := by
    unfold selDen
    have hpt : ∀ p : Px,
        (if optLtB (predictions_range cPreds p) 50 then (pxVals cPreds p).length
          else 0) = if p.1.1 < 84 then 0 else 1 := by
      intro p
      rw [cRange, cPxVals]
      by_cases h : p.1.1 < 84 <;> simp [optLtB, h] <;> norm_num
    rw [Finset.sum_congr rfl (fun p _ => hpt p), sum_px_row_ite_nat]
  unfold mean_certain_pred selNanmean
  rw [hnum, hden]
  norm_num

theorem cMeanUncertain : mean_uncertain_pred cPreds = some 45 := by
  have hnum : selNum cPreds
      (fun p => optGtB (predictions_range cPreds p) 50) = 1270080 := by
    unfold selNum
    have hpt : ∀ p : Px,
        (if optGtB (predictions_range cPreds p) 50 then (pxVals cPreds p).sum
          else 0) = if p.1.1 < 84 then (90 : ℚ) else 0 := by
      intro p
      rw [cRange, cPxVals]
      by_cases h : p.1.1 < 84 <;> simp [optGtB, h] <;> norm_num
    rw [Finset.sum_congr rfl (fun p _ => hpt p), sum_px_row_ite_q]
    norm_num
  have hden : selDen cPreds
      (fun p => optGtB (predictions_range cPreds p) 50) = 28224 := by
    unfold selDen
    have hpt : ∀ p : Px,
        (if optGtB (predictions_range cPreds p) 50 then (pxVals cPreds p).length
          else 0) = if p.1.1 < 84 then 2 else 0 := by
      intro p
      rw [cRange, cPxVals]
      by_cases h : p.1.1 < 84 <;> simp [optGtB, h] <;> norm_num
    rw [Finset.sum_congr rfl (fun p _ => hpt p), sum_px_row_ite_nat]
  unfold mean_uncertain_pred selNanmean
  rw [hnum, hden]
  norm_num

theorem cOverpredict : overpredict cPreds = true := by
  unfold overpredict
  rw [cMeanUncertain, cMeanCertain]
  norm_num [overFlag]

theorem cPatch0Mean : patchNanmean cPatch0 = some 40 := by
  have hnum : patchNum cPatch0 = 1128960 := by
    unfold patchNum
    have hpt : ∀ p : Px, (cPatch0 p).getD 0 = if p.1.1 < 84 then (80 : ℚ) else 0 := by
      intro p
      simp [cPatch0]
    rw [Finset.sum_congr rfl (fun p _ => hpt p), sum_px_row_ite_q]
    norm_num
  have hden : patchDen cPatch0 = 28224 := by
    unfold patchDen
    have hpt : ∀ p : Px, (if (cPatch0 p).isSome then 1 else 0) = 1 := by
      intro p
      simp [cPatch0]
    rw [Finset.sum_congr rfl (fun p _ => hpt p)]
    rw [Finset.sum_const, Finset.card_univ, Fintype.card_prod, Fintype.card_fin]
    simp only [smul_eq_mul, mul_one]
  unfold patchNanmean
  rw [hnum, hden]
  norm_num

theorem cPatch1Mean : patchNanmean cPatch1 = some 10 := by
  have hnum : patchNum cPatch1 = 141120 := by
    unfold patchNum
    have hpt : ∀ p : Px, (cPatch1 p).getD 0 = if p.1.1 < 84 then (10 : ℚ) else 0 := by
      intro p
      by_cases h : p.1.1 < 84 <;> simp [cPatch1, h]
    rw [Finset.sum_congr rfl (fun p _ => hpt p), sum_px_row_ite_q]
    norm_num
  have hden : patchDen cPatch1 = 14112 := by
    unfold patchDen
    have hpt : ∀ p : Px, (if (cPatch1 p).isSome then 1 else 0) =
        if p.1.1 < 84 then 1 else 0 := by
      intro p
      by_cases h : p.1.1 < 84 <;> simp [cPatch1, h]
    rw [Finset.sum_congr rfl (fun p _ => hpt p), sum_px_row_ite_nat]
  unfold patchNanmean
  rw [hnum, hden]
  norm_num

theorem cProblem0 : problem_tile cPreds cPatch0 = true := by
  unfold problem_tile
  rw [cOverpredict, if_pos rfl, cPatch0Mean, cMeanCertain]
  norm_num [optGtOpt]

theorem cProblem1 : problem_tile cPreds cPatch1 = true := by
  unfold problem_tile
  rw [cOverpredict, if_pos rfl, cPatch1Mean, cMeanCertain]
  norm_num [optGtOpt]

theorem sum_bd_row_ite_q (k : ℕ) (a b : ℚ) :
    (Finset.univ.sum fun bd : Fin 56 × Fin 56 => if bd.1.1 < k then a else b) =
      56 * ((Finset.filter (fun x : Fin 56 => x.1 < k) Finset.univ).card * a +
        (Finset.filter (fun x : Fin 56 => ¬x.1 < k) Finset.univ).card * b) := by
  rw [Fintype.sum_prod_type]
  dsimp only
  simp only [Finset.sum_const, Finset.card_univ, Fintype.card_fin, nsmul_eq_mul,
    mul_ite]
  rw [Finset.sum_ite]
  simp only [Finset.sum_const, nsmul_eq_mul]
  ring

theorem sum_bd_row_ite_nat (k : ℕ) (a b : ℕ) :
    (Finset.univ.sum fun bd : Fin 56 × Fin 56 => if bd.1.1 < k then a else b) =
      56 * ((Finset.filter (fun x : Fin 56 => x.1 < k) Finset.univ).card * a +
        (Finset.filter (fun x : Fin 56 => ¬x.1 < k) Finset.univ).card * b) := by
  rw [Fintype.sum_prod_type]
  dsimp only
  simp only [Finset.sum_const, Finset.card_univ, Fintype.card_fin, smul_eq_mul,
    mul_ite]
  rw [Finset.sum_ite]
  simp only [Finset.sum_const, nsmul_eq_mul, Nat.cast_id]
  ring

theorem cBlockPt (a c : Fin 3) (k : ℕ)
    (hiff : ∀ b : ℕ, b < 56 → (56 * a.1 + b < 84 ↔ b < k)) :
    ∀ bd : Fin 56 × Fin 56,
      (predictions_range cPreds (pxIdx a bd.1, pxIdx c bd.2)).getD 0 =
        if bd.1.1 < k then (70 : ℚ) else 0 := by
  intro bd
  rw [cRange]
  by_cases h : bd.1.1 < k
  · rw [if_pos (show ((pxIdx a bd.1, pxIdx c bd.2) : Px).1.1 < 84 from by
      show 56 * a.1 + bd.1.1 < 84
      exact (hiff bd.1.1 bd.1.2).mpr h)]
    rw [if_pos h]
    rfl
  · rw [if_neg (show ¬((pxIdx a bd.1, pxIdx c bd.2) : Px).1.1 < 84 from by
      show ¬56 * a.1 + bd.1.1 < 84
      intro hcon
      exact h ((hiff bd.1.1 bd.1.2).mp hcon))]
    rw [if_neg h]
    rfl

theorem cBlockMean0 (a c : Fin 3) (ha : a.1 = 0) :
    block_range_mean cPreds a c = 70 := by
  unfold block_range_mean
  rw [Finset.sum_congr rfl (fun bd _ => cBlockPt a c 84 (by intro b hb; omega) bd)]
  rw [sum_bd_row_ite_q]
  rw [show (Finset.filter (fun x : Fin 56 => x.1 < 84) Finset.univ).card = 56
      from by decide,
    show (Finset.filter (fun x : Fin 56 => ¬x.1 < 84) Finset.univ).card = 0
      from by decide]
  norm_num

theorem cBlockMean1 (a c : Fin 3) (ha : a.1 = 1) :
    block_range_mean cPreds a c = 35 := by
  unfold block_range_mean
  rw [Finset.sum_congr rfl (fun bd _ => cBlockPt a c 28 (by intro b hb; omega) bd)]
  rw [sum_bd_row_ite_q]
  rw [show (Finset.filter (fun x : Fin 56 => x.1 < 28) Finset.univ).card = 28
      from by decide,
    show (Finset.filter (fun x : Fin 56 => ¬x.1 < 28) Finset.univ).card = 28
      from by decide]
  norm_num

theorem cBlockMean2 (a c : Fin 3) (ha : a.1 = 2) :
    block_range_mean cPreds a c = 0 := by
  unfold block_range_mean
  rw [Finset.sum_congr rfl (fun bd _ => cBlockPt a c 0 (by intro b hb; omega) bd)]
  rw [sum_bd_row_ite_q]
  norm_num

theorem cNOutliers : n_outliers cPreds = 3 := by
  unfold n_outliers
  have hcongr : ∀ ac : Fin 3 × Fin 3,
      (50 < block_range_mean cPreds ac.1 ac.2) ↔ (ac.1.1 = 0) := by
    intro ac
    have h3 := ac.1.2
    have hcase : ac.1.1 = 0 ∨ ac.1.1 = 1 ∨ ac.1.1 = 2 := by omega
    rcases hcase with h | h | h
    · rw [cBlockMean0 ac.1 ac.2 h]
      norm_num [h]
    · rw [cBlockMean1 ac.1 ac.2 h]
      norm_num [h]
    · rw [cBlockMean2 ac.1 ac.2 h]
      norm_num [h]
  rw [Finset.filter_congr (fun ac _ => hcongr ac)]
  decide

theorem cFoot0Empty : footprintEmpty cPatch0 = false := by
  unfold footprintEmpty
  rw [decide_eq_false_iff_not]
  intro hall
  have h := hall cPt
  simp [cPatch0] at h

theorem cFoot0Full : footprintFull cPatch0 = true := by
  unfold footprintFull
  rw [decide_eq_true_eq]
  intro p
  simp [cPatch0]

theorem cDiscard0 : discardPatch cPreds cPatch0 = true := by
  unfold discardPatch
  rw [cFoot0Empty, cNOutliers, cProblem0]
  rfl

theorem cBlockMaskedPt (a c : Fin 3) (k : ℕ)
    (hiff : ∀ b : ℕ, b < 56 → (56 * a.1 + b < 84 ↔ b < k)) :
    (∀ bd : Fin 56 × Fin 56,
      (if (cPatch1 (pxIdx a bd.1, pxIdx c bd.2)).isSome then
        (predictions_range cPreds (pxIdx a bd.1, pxIdx c bd.2)).getD 0 else 0) =
        if bd.1.1 < k then (70 : ℚ) else 0) ∧
    (∀ bd : Fin 56 × Fin 56,
      (if (cPatch1 (pxIdx a bd.1, pxIdx c bd.2)).isSome then (1 : ℕ) else 0) =
        if bd.1.1 < k then 1 else 0) := by
  have hsome : ∀ bd : Fin 56 × Fin 56,
      (cPatch1 (pxIdx a bd.1, pxIdx c bd.2)).isSome = decide (bd.1.1 < k) := by
    intro bd
    by_cases h : bd.1.1 < k
    · rw [show cPatch1 (pxIdx a bd.1, pxIdx c bd.2) = some 10 from by
        unfold cPatch1
        exact if_pos (show ((pxIdx a bd.1, pxIdx c bd.2) : Px).1.1 < 84 from by
          show 56 * a.1 + bd.1.1 < 84
          exact (hiff bd.1.1 bd.1.2).mpr h)]
      simp [h]
    · rw [show cPatch1 (pxIdx a bd.1, pxIdx c bd.2) = none from by
        unfold cPatch1
        exact if_neg (show ¬((pxIdx a bd.1, pxIdx c bd.2) : Px).1.1 < 84 from by
          show ¬56 * a.1 + bd.1.1 < 84
          intro hcon
          exact h ((hiff bd.1.1 bd.1.2).mp hcon))]
      simp [h]
  constructor
  · intro bd
    rw [hsome bd]
    by_cases h : bd.1.1 < k
    · rw [if_pos (by rw [decide_eq_true h] : decide (bd.1.1 < k) = true),
        if_pos h]
      have := cBlockPt a c k hiff bd
      rw [this, if_pos h]
    · rw [if_neg (by rw [decide_eq_false h]; exact Bool.false_ne_true), if_neg h]
  · intro bd
    rw [hsome bd]
    by_cases h : bd.1.1 < k
    · rw [if_pos (by rw [decide_eq_true h] : decide (bd.1.1 < k) = true),
        if_pos h]
    · rw [if_neg (by rw [decide_eq_false h]; exact Bool.false_ne_true), if_neg h]

theorem cBlockMasked0 (a c : Fin 3) (ha : a.1 = 0) :
    blockNanmeanMasked cPreds cPatch1 a c = some 70 := by
  have hpt := cBlockMaskedPt a c 84 (by intro b hb; omega)
  unfold blockNanmeanMasked blockNumMasked blockDenMasked
  rw [Finset.sum_congr rfl (fun bd _ => hpt.2 bd),
    Finset.sum_congr rfl (fun bd _ => hpt.1 bd)]
  rw [sum_bd_row_ite_nat, sum_bd_row_ite_q]
  rw [show (Finset.filter (fun x : Fin 56 => x.1 < 84) Finset.univ).card = 56
      from by decide,
    show (Finset.filter (fun x : Fin 56 => ¬x.1 < 84) Finset.univ).card = 0
      from by decide]
  norm_num

theorem cBlockMasked1 (a c : Fin 3) (ha : a.1 = 1) :
    blockNanmeanMasked cPreds cPatch1 a c = some 70 := by
  have hpt := cBlockMaskedPt a c 28 (by intro b hb; omega)
  unfold blockNanmeanMasked blockNumMasked blockDenMasked
  rw [Finset.sum_congr rfl (fun bd _ => hpt.2 bd),
    Finset.sum_congr rfl (fun bd _ => hpt.1 bd)]
  rw [sum_bd_row_ite_nat, sum_bd_row_ite_q]
  rw [show (Finset.filter (fun x : Fin 56 => x.1 < 28) Finset.univ).card = 28
      from by decide,
    show (Finset.filter (fun x : Fin 56 => ¬x.1 < 28) Finset.univ).card = 28
      from by decide]
  norm_num

theorem cBlockMasked2 (a c : Fin 3) (ha : a.1 = 2) :
    blockNanmeanMasked cPreds cPatch1 a c = none := by
  have hpt := cBlockMaskedPt a c 0 (by intro b hb; omega)
  unfold blockNanmeanMasked blockNumMasked blockDenMasked
  rw [Finset.sum_congr rfl (fun bd _ => hpt.2 bd)]
  rw [sum_bd_row_ite_nat]
  norm_num

theorem cNOutBlocks : n_outlier_blocks cPreds cPatch1 = 6 := by
  unfold n_outlier_blocks
  have hcongr : ∀ ac : Fin 3 × Fin 3,
      (optGtB (blockNanmeanMasked cPreds cPatch1 ac.1 ac.2) 50 = true) ↔
        (ac.1.1 ≤ 1) := by
    intro ac
    have h3 := ac.1.2
    have hcase : ac.1.1 = 0 ∨ ac.1.1 = 1 ∨ ac.1.1 = 2 := by omega
    rcases hcase with h | h | h
    · rw [cBlockMasked0 ac.1 ac.2 h]
      norm_num [optGtB, h]
    · rw [cBlockMasked1 ac.1 ac.2 h]
      norm_num [optGtB, h]
    · rw [cBlockMasked2 ac.1 ac.2 h]
      norm_num [optGtB, h]
  rw [Finset.filter_congr (fun ac _ => hcongr ac)]
  decide

theorem cClaimCond1 : c3ClaimCond cPreds cPatch1 := by
  refine ⟨cProblem1, ?_⟩
  rw [cNOutBlocks]
  norm_num

/-- C3 (amended): the outlier-rejection loop runs only over the first
`n_tiles − n_border − n_right` stack indices, i.e. the interior patches.
Every interior patch that meets the code's discard condition (nonempty
footprint, at least 2 coarse blocks of mean range above 50, and bias in the
tile's global direction) has its values replaced by NaN and its weight layer
zeroed; every border patch (index at or beyond the loop bound) is left
untouched, whatever its statistics. -/
theorem c3_outlier_rejection_amended (preds : List (Px → Option ℚ))
    (mults : List (Px → ℚ)) (nLoop i : ℕ)
    (hip : i < preds.length) (him : i < mults.length) :
    (i < nLoop → discardPatch preds (preds.getD i noPatch) = true →
      (rejectedPreds preds nLoop).getD i noPatch = noPatch ∧
      (rejectedMults preds mults nLoop).getD i noMult = noMult) ∧
    (nLoop ≤ i →
      (rejectedPreds preds nLoop).getD i noPatch = preds.getD i noPatch ∧
      (rejectedMults preds mults nLoop).getD i noMult = mults.getD i noMult) := by
  have hp := getD_mapWithIndex
    (fun j f => if (decide (j < nLoop) && discardPatch preds f) then noPatch else f)
    preds 0 i noPatch hip
  have hm := getD_mapWithIndex
    (fun j m => if (decide (j < nLoop) && discardPatch preds (preds.getD j noPatch))
      then noMult else m)
    mults 0 i noMult him
  rw [Nat.zero_add] at hp hm
  constructor
  · intro hlt hdisc
    unfold rejectedPreds rejectedMults
    rw [hp, hm]
    dsimp only
    rw [hdisc, decide_eq_true hlt]
    exact ⟨rfl, rfl⟩
  · intro hge
    unfold rejectedPreds rejectedMults
    rw [hp, hm]
    dsimp only
    rw [decide_eq_false (show ¬i < nLoop from by omega)]
    simp only [Bool.false_and]
    exact ⟨rfl, rfl⟩

/-- Witness for the amended C3: in the concrete two-patch stack the interior
patch 0 meets the discard condition and is wiped (values and weights). -/
theorem c3_witness :
    (rejectedPreds cPreds 1).getD 0 noPatch = noPatch ∧
    (rejectedMults cPreds cMults 1).getD 0 noMult = noMult :=
  (c3_outlier_rejection_amended cPreds cMults 1 0 (by decide) (by decide)).1
    (by decide)
    (show discardPatch cPreds (cPreds.getD 0 noPatch) = true from cDiscard0)

/-- Counterexample to C3 as stated: in the concrete stack (one interior patch,
one left-border patch, `n_border = 1`, `n_right = 0`, loop bound 1), the
border patch satisfies the claim's condition — the tile is over-predicting,
its mean 10 exceeds the low-range mean 0, and six of its coarse 56×56
sub-blocks have mean range 70 > 50 — yet the rejection pass completes and
leaves the border patch's values and weight unchanged (weight 1, not 0;
values not NaN). -/
theorem c3_counterexample :
    c3ClaimCond cPreds cPatch1 ∧
    outlier_rejection cPreds cMults 1 =
      Except.ok (rejectedPreds cPreds 1, rejectedMults cPreds cMults 1) ∧
    (rejectedPreds cPreds 1).getD 1 noPatch cPt = some 10 ∧
    (rejectedMults cPreds cMults 1).getD 1 noMult cPt = 1 := by
  have hp := getD_mapWithIndex
    (fun j f => if (decide (j < 1) && discardPatch cPreds f) then noPatch else f)
    cPreds 0 1 noPatch (by decide)
  have hm := getD_mapWithIndex
    (fun j m => if (decide (j < 1) && discardPatch cPreds (cPreds.getD j noPatch))
      then noMult else m)
    cMults 0 1 noMult (by decide)
  rw [Nat.zero_add] at hp hm
  have hguard : ((List.range 1).all (fun i =>
      footprintEmpty (cPreds.getD i noPatch) ||
        footprintFull (cPreds.getD i noPatch))) = true := by
    rw [show List.range 1 = [0] from rfl]
    simp only [List.all_cons, List.all_nil, Bool.and_true]
    rw [show cPreds.getD 0 noPatch = cPatch0 from rfl, cFoot0Empty, cFoot0Full]
    rfl
  refine ⟨cClaimCond1, ?_, ?_, ?_⟩
  · unfold outlier_rejection
    rw [if_pos hguard]
  · unfold rejectedPreds
    rw [hp]
    dsimp only
    rw [decide_eq_false (show ¬(1 : ℕ) < 1 from by omega)]
    simp only [Bool.false_and]
    rfl
  · unfold rejectedMults
    rw [hm]
    dsimp only
    rw [decide_eq_false (show ¬(1 : ℕ) < 1 from by omega)]
    simp only [Bool.false_and]
    rfl
